import Mathlib

/-!
# SensorsMgr: sensor fusion of accelerometer, magnetometer and screen orientation

Shallow embedding of `src/core/modules/SensorsMgr.cpp`.

* Floating-point values (`float`, `double`, `qreal`) are read as elements of a linearly
  ordered field `K` (exact arithmetic); the definitions of the model are computable and
  can be run at `K = ℚ`.
* The C library functions (`atan2`, `sqrt`, `cos`, `sin`, `M_PI`) are gathered in `Libm`;
  `realLibm` is their meaning over the real numbers.
* The functions of `StelCore`, `StelMovementMgr` and `StelUtils` that the manager calls
  are gathered in `Core`; the view fields the manager writes are part of `State`.
* Sensor readings, the field of view, the Android rotation code and the result of the
  magnetic-model lookup are inputs of the call they are read in.
-/

set_option linter.unusedSectionVars false

namespace SensorsMgr

/-- Three-component vector: `Vec3d`, `Vec3f`, and the `x()`, `y()`, `z()` of a sensor reading. -/
structure Vec3 (K : Type) where
  x : K
  y : K
  z : K
  deriving DecidableEq

/-- Values of `QOrientationReading::Orientation`. -/
inductive Orientation where
  | Undefined
  | TopUp
  | TopDown
  | LeftUp
  | RightUp
  | FaceUp
  | FaceDown
  deriving DecidableEq

/-- The three conditionally compiled bodies of `SensorsMgr::applyOrientation`:
the one reading `StelAndroid::getOrientation()`, the one reading `mOrientation`,
and the empty one. -/
inductive Variant where
  | android
  | orientationSensor
  | identity
  deriving DecidableEq

/-- C library functions used by `rot2d` and `SensorsMgr::update`. -/
structure Libm (K : Type) where
  atan2 : K → K → K
  sqrt : K → K
  cos : K → K
  sin : K → K
  pi : K

/-- Collaborators called by the manager: `StelCore::altAzToJ2000`, `StelCore::j2000ToAltAz`,
`StelUtils::rectToSphe` (returning `(lng, lat)`), `StelUtils::spheToRect`, and
`Mat4f::rotation(axis, angle)` applied to a vector with `transfo4d`. -/
structure Core (K : Type) where
  altAzToJ2000 : Vec3 K → Vec3 K
  j2000ToAltAz : Vec3 K → Vec3 K
  rectToSphe : Vec3 K → K × K
  spheToRect : K → K → Vec3 K
  rotation : Vec3 K → K → Vec3 K → Vec3 K

/-- Fields of `SensorsMgr`, the active flags of its three Qt sensors, the number of
`enabledChanged` signals emitted, and the view fields it writes
(`StelMovementMgr` view direction and up vector, `StelCore` angle for gravity text). -/
structure State (K : Type) where
  enabled : Bool
  sensorX : K
  sensorY : K
  sensorZ : K
  magnetX : K
  magnetY : K
  magnetZ : K
  mOrientation : Int
  firstMeasure : Bool
  magd : K
  accelerometerActive : Bool
  magnetometerActive : Bool
  orientationActive : Bool
  enabledChangedEmitted : Nat
  viewDirectionJ2000 : Vec3 K
  viewUpVectorJ2000 : Vec3 K
  defautAngleForGravityText : K
  deriving DecidableEq

section Model

variable {K : Type} [LinearOrderedField K]

/-- State built by the constructor `SensorsMgr::SensorsMgr()`; `magd` has no initialiser
and the view belongs to other modules, so they are arguments. -/
def construct (magd : K) (viewDirection viewUp : Vec3 K) (angle : K) : State K :=
  { enabled := false
    sensorX := 0
    sensorY := 0
    sensorZ := 0
    magnetX := 0
    magnetY := 0
    magnetZ := 0
    mOrientation := 0
    firstMeasure := true
    magd := magd
    accelerometerActive := false
    magnetometerActive := false
    orientationActive := false
    enabledChangedEmitted := 0
    viewDirectionJ2000 := viewDirection
    viewUpVectorJ2000 := viewUp
    defautAngleForGravityText := angle }

/-- The `readingChanged` handler connected in `SensorsMgr::init`. -/
def onOrientationReading (o : Orientation) (s : State K) : State K :=
  let newOrientation : Int :=
    match o with
    | Orientation.TopUp => 0
    | Orientation.LeftUp => 90
    | Orientation.TopDown => 180
    | Orientation.RightUp => 270
    | _ => s.mOrientation
  if newOrientation ≠ s.mOrientation then { s with mOrientation := newOrientation } else s

/-- `SensorsMgr::setEnabled`. `lookup` is the outcome of the magnetic-model query of the
`try` block: `some d` when `FieldComponents` stored the declination `d` in `magd`,
`none` when a `std::runtime_error` was thrown. -/
def setEnabled (C : Core K) (value : Bool) (lookup : Option K) (s : State K) : State K :=
  if value = s.enabled then s
  else
    let s1 : State K :=
      { s with
        enabled := value
        accelerometerActive := value
        magnetometerActive := value
        orientationActive := value
        firstMeasure := true }
    let s2 : State K :=
      if !s1.enabled then
        { s1 with
          viewUpVectorJ2000 := C.altAzToJ2000 ⟨0, 0, 1⟩
          defautAngleForGravityText := 0 }
      else s1
    let s3 : State K :=
      if s2.enabled then
        match lookup with
        | some d => { s2 with magd := d }
        | none => { s2 with magd := 0 }
      else s2
    { s3 with enabledChangedEmitted := s3.enabledChangedEmitted + 1 }

/-- `mix(x, y, t)`. -/
def mix (x y t : K) : K :=
  x * (1 - t) + y * t

/-- `rot2d(&x, &y, a)`: the new values of `x` and `y`. -/
def rot2d (L : Libm K) (x y a : K) : K × K :=
  let cs := L.cos a
  let sn := L.sin a
  (x * cs - y * sn, x * sn + y * cs)

/-- Body of `applyOrientation` compiled under the Android condition;
`rotation` is the value of `StelAndroid::getOrientation()`. -/
def applyOrientationAndroid (rotation : Int) (v : Vec3 K) : Vec3 K :=
  if rotation = 0 then v
  else if rotation = 1 then ⟨-v.y, v.x, v.z⟩
  else if rotation = 2 then ⟨-v.x, -v.y, v.z⟩
  else if rotation = 3 then ⟨v.y, -v.x, v.z⟩
  else v

/-- Body of `applyOrientation` that switches on `mOrientation`. -/
def applyOrientationSensor (mOrientation : Int) (v : Vec3 K) : Vec3 K :=
  if mOrientation = 0 then v
  else if mOrientation = 90 then ⟨v.y, -v.x, v.z⟩
  else if mOrientation = 180 then ⟨-v.x, -v.y, v.z⟩
  else if mOrientation = 270 then ⟨-v.y, v.x, v.z⟩
  else v

/-- Body of `applyOrientation` of the final `#else` branch. -/
def applyOrientationNone (v : Vec3 K) : Vec3 K :=
  v

/-- `SensorsMgr::applyOrientation` as built for variant `var`. -/
def applyOrientation (var : Variant) (rotation mOrientation : Int) (v : Vec3 K) : Vec3 K :=
  match var with
  | Variant.android => applyOrientationAndroid rotation v
  | Variant.orientationSensor => applyOrientationSensor mOrientation v
  | Variant.identity => applyOrientationNone v

/-- The constant `g` of `update`. -/
def g : K := 9.80665

/-- Value of `averagingCoef` in `update`. -/
def averagingCoef (firstMeasure : Bool) (fov : K) : K :=
  if firstMeasure then 1 else mix 0.01 0.1 (min (fov / 130.0) 1.0)

/-- Value of `roll` in `update`, from the remapped smoothed acceleration. -/
def roll (L : Libm K) (v : Vec3 K) : K :=
  L.atan2 (-v.x) v.y

/-- Value of `pitch` in `update`, from the remapped smoothed acceleration. -/
def pitch (L : Libm K) (v : Vec3 K) : K :=
  L.atan2 (-v.z) (L.sqrt (v.x * v.x + v.y * v.y))

/-- Smoothed acceleration after the three `mix` calls of `update` on reading `r`. -/
def smoothAccel (s : State K) (coef : K) (r : Vec3 K) : Vec3 K :=
  ⟨mix s.sensorX (r.x / g) coef, mix s.sensorY (r.y / g) coef, mix s.sensorZ (r.z / g) coef⟩

/-- Smoothed magnetic field after the three `mix` calls of `update` on reading `m`. -/
def smoothMagnet (s : State K) (coef : K) (m : Vec3 K) : Vec3 K :=
  ⟨mix s.magnetX m.x coef, mix s.magnetY m.y coef, mix s.magnetZ m.z coef⟩

/-- The remapped magnetic vector after `rot2d(&x, &y, -roll)` and `rot2d(&y, &z, pitch)`. -/
def magProj (L : Libm K) (rollA pitchA : K) (w : Vec3 K) : Vec3 K :=
  let p1 := rot2d L w.x w.y (-rollA)
  let p2 := rot2d L p1.2 w.z pitchA
  ⟨p1.1, p2.1, p2.2⟩

/-- Value of `az` in `update`. -/
def azimuth (L : Libm K) (rollA pitchA magd : K) (w : Vec3 K) : K :=
  L.atan2 (-(magProj L rollA pitchA w).x) (magProj L rollA pitchA w).z - magd * 0.0174533

/-- `SensorsMgr::update`. `rotation` is `StelAndroid::getOrientation()`, `fov` the field of
view of the J2000 projection, `reading` and `magnetoReading` the sensor readings
(`none` for a null pointer). -/
def update (L : Libm K) (C : Core K) (var : Variant) (rotation : Int) (fov : K)
    (reading magnetoReading : Option (Vec3 K)) (s : State K) : State K :=
  if !s.enabled then s
  else
    match reading with
    | none => s
    | some r =>
      let coef := averagingCoef s.firstMeasure fov
      let a := smoothAccel s coef r
      let v := applyOrientation var rotation s.mOrientation a
      let rollA := roll L v
      let pitchA := pitch L v
      let lng := (C.rectToSphe (C.j2000ToAltAz s.viewDirectionJ2000)).1
      let viewHoriz := C.spheToRect lng 0
      let s1 : State K :=
        { s with
          firstMeasure := false
          sensorX := a.x
          sensorY := a.y
          sensorZ := a.z
          defautAngleForGravityText := rollA * 180 / L.pi
          viewDirectionJ2000 := C.altAzToJ2000 (C.spheToRect lng pitchA)
          viewUpVectorJ2000 := C.altAzToJ2000 (C.rotation viewHoriz rollA ⟨0, 0, 1⟩) }
      match magnetoReading with
      | none => s1
      | some m =>
        let b := smoothMagnet s coef m
        let w := applyOrientation var rotation s.mOrientation b
        let az := azimuth L rollA pitchA s.magd w
        { s1 with
          magnetX := b.x
          magnetY := b.y
          magnetZ := b.z
          viewDirectionJ2000 := C.altAzToJ2000 (C.spheToRect az pitchA) }

/-- Calls the manager receives: an orientation reading, `setEnabled`, or an `update` tick. -/
inductive Event (K : Type) where
  | orientation (o : Orientation)
  | enable (value : Bool) (lookup : Option K)
  | tick (rotation : Int) (fov : K) (reading magnetoReading : Option (Vec3 K))

/-- Effect of one call on the state. -/
def step (L : Libm K) (C : Core K) (var : Variant) (s : State K) : Event K → State K
  | Event.orientation o => onOrientationReading o s
  | Event.enable value lookup => setEnabled C value lookup s
  | Event.tick rotation fov reading magnetoReading =>
    update L C var rotation fov reading magnetoReading s

/-- Effect of a sequence of calls, first to last. -/
def run (L : Libm K) (C : Core K) (var : Variant) (s : State K) (es : List (Event K)) : State K :=
  es.foldl (step L C var) s

/-- A call that blends no acceleration sample: an orientation reading, or an `update` tick
whose accelerometer reading is null. -/
def Event.noAccel : Event K → Bool
  | Event.orientation _ => true
  | Event.enable _ _ => false
  | Event.tick _ _ reading _ => reading.isNone

/-- The smoothed acceleration `(sensorX, sensorY, sensorZ)` held by a state. -/
def State.accel (s : State K) : Vec3 K :=
  ⟨s.sensorX, s.sensorY, s.sensorZ⟩

/-- The first `n` calls of a run of `update` ticks that all carry the acceleration sample
`r` at field of view `fov`; tick number `i` carries the magnetic reading `ms i`. -/
def ticks (rotation : Int) (fov : K) (r : Vec3 K) (ms : ℕ → Option (Vec3 K)) (n : ℕ) :
    List (Event K) :=
  (List.range n).map (fun i => Event.tick rotation fov (some r) (ms i))

/-- The end-to-end scenario: `setEnabled(true)` followed by `n` `update` ticks that are all
fed the acceleration sample `(0, 0, 9.80665)` at field of view `60`, with the identity
remap; the state reached. -/
def gravityFeed (L : Libm K) (C : Core K) (rotation : Int) (lookup : Option K)
    (ms : ℕ → Option (Vec3 K)) (s : State K) (n : ℕ) : State K :=
  run L C Variant.identity (setEnabled C true lookup s)
    (ticks rotation 60 ⟨0, 0, 9.80665⟩ ms n)

/-- Whether a call is a `setEnabled` call. -/
def Event.isEnable : Event K → Bool
  | Event.enable _ _ => true
  | _ => false

/-- A sample set of collaborators for evaluating the model on concrete inputs: the two
frames coincide, spherical coordinates are longitude/latitude on the unit sphere, and
`rotation` turns a vector about a unit axis (Rodrigues formula). -/
def sampleCore (L : Libm K) : Core K :=
  { altAzToJ2000 := fun v => v
    j2000ToAltAz := fun v => v
    rectToSphe := fun v => (L.atan2 v.y v.x, L.atan2 v.z (L.sqrt (v.x * v.x + v.y * v.y)))
    spheToRect := fun lng lat => ⟨L.cos lng * L.cos lat, L.sin lng * L.cos lat, L.sin lat⟩
    rotation := fun k a v =>
      let d := k.x * v.x + k.y * v.y + k.z * v.z
      ⟨v.x * L.cos a + (k.y * v.z - k.z * v.y) * L.sin a + k.x * d * (1 - L.cos a),
       v.y * L.cos a + (k.z * v.x - k.x * v.z) * L.sin a + k.y * d * (1 - L.cos a),
       v.z * L.cos a + (k.x * v.y - k.y * v.x) * L.sin a + k.z * d * (1 - L.cos a)⟩ }

end Model

/-- The C library functions over the real numbers; `atan2 y x` is the argument of `x + y i`,
in `(-π, π]`, and `0` at the origin. -/
noncomputable def realLibm : Libm ℝ :=
  { atan2 := fun y x => Complex.arg ⟨x, y⟩
    sqrt := Real.sqrt
    cos := Real.cos
    sin := Real.sin
    pi := Real.pi }

/-! ## Shared lemmas -/

section Lemmas

variable {K : Type} [LinearOrderedField K]

theorem mix_one (x y : K) : mix x y 1 = y := by
  simp [mix]

theorem mix_zero (x y : K) : mix x y 0 = x := by
  simp [mix]

theorem mix_eq_add (x y t : K) : mix x y t = x + (y - x) * t := by
  unfold mix
  ring

theorem setEnabled_true_of_disabled (C : Core K) (lookup : Option K) (s : State K)
    (hs : s.enabled = false) :
    (setEnabled C true lookup s).enabled = true ∧
      (setEnabled C true lookup s).firstMeasure = true := by
  cases lookup <;> simp [setEnabled, hs]

theorem step_noAccel_keeps (L : Libm K) (C : Core K) (var : Variant) (s : State K)
    (e : Event K) (he : e.noAccel = true) :
    (step L C var s e).enabled = s.enabled ∧
      (step L C var s e).firstMeasure = s.firstMeasure ∧
      (step L C var s e).magd = s.magd := by
  cases e with
  | orientation o =>
    simp only [step, onOrientationReading]
    split <;> simp
  | enable value lookup => simp [Event.noAccel] at he
  | tick rotation fov reading magnetoReading =>
    cases reading with
    | none =>
      simp only [step, update]
      split <;> simp
    | some r => simp [Event.noAccel] at he

theorem run_noAccel_keeps (L : Libm K) (C : Core K) (var : Variant) (es : List (Event K))
    (s : State K) (hes : ∀ e ∈ es, e.noAccel = true) :
    (run L C var s es).enabled = s.enabled ∧
      (run L C var s es).firstMeasure = s.firstMeasure ∧
      (run L C var s es).magd = s.magd := by
  induction es generalizing s with
  | nil => simp [run]
  | cons e rest ih =>
    have h1 := step_noAccel_keeps L C var s e (hes e (List.mem_cons_self e rest))
    have h2 := ih (step L C var s e) (fun e2 h => hes e2 (List.mem_cons_of_mem e h))
    simp only [run, List.foldl_cons] at h2 ⊢
    exact ⟨h2.1.trans h1.1, h2.2.1.trans h1.2.1, h2.2.2.trans h1.2.2⟩

theorem update_sensor (L : Libm K) (C : Core K) (var : Variant) (rotation : Int) (fov : K)
    (r : Vec3 K) (m : Option (Vec3 K)) (s : State K) (hs : s.enabled = true) :
    (update L C var rotation fov (some r) m s).sensorX
        = mix s.sensorX (r.x / g) (averagingCoef s.firstMeasure fov) ∧
      (update L C var rotation fov (some r) m s).sensorY
        = mix s.sensorY (r.y / g) (averagingCoef s.firstMeasure fov) ∧
      (update L C var rotation fov (some r) m s).sensorZ
        = mix s.sensorZ (r.z / g) (averagingCoef s.firstMeasure fov) ∧
      (update L C var rotation fov (some r) m s).firstMeasure = false := by
  cases m <;> simp [update, hs, smoothAccel]

theorem update_view (L : Libm K) (C : Core K) (var : Variant) (rotation : Int) (fov : K)
    (r : Vec3 K) (s : State K) (hs : s.enabled = true) :
    (∀ m : Option (Vec3 K),
        (update L C var rotation fov (some r) m s).defautAngleForGravityText
          = roll L (applyOrientation var rotation s.mOrientation
              ⟨(update L C var rotation fov (some r) m s).sensorX,
                (update L C var rotation fov (some r) m s).sensorY,
                (update L C var rotation fov (some r) m s).sensorZ⟩) * 180 / L.pi) ∧
      (∀ m : Vec3 K,
        (update L C var rotation fov (some r) (some m) s).viewDirectionJ2000
          = C.altAzToJ2000 (C.spheToRect
              (azimuth L
                (roll L (applyOrientation var rotation s.mOrientation
                  (smoothAccel s (averagingCoef s.firstMeasure fov) r)))
                (pitch L (applyOrientation var rotation s.mOrientation
                  (smoothAccel s (averagingCoef s.firstMeasure fov) r)))
                s.magd
                (applyOrientation var rotation s.mOrientation
                  (smoothMagnet s (averagingCoef s.firstMeasure fov) m)))
              (pitch L (applyOrientation var rotation s.mOrientation
                (smoothAccel s (averagingCoef s.firstMeasure fov) r))))) := by
  refine ⟨?_, ?_⟩
  · intro m
    cases m <;> simp [update, hs]
  · intro m
    simp [update, hs]

theorem step_not_enable_keeps (L : Libm K) (C : Core K) (var : Variant) (s : State K)
    (e : Event K) (he : e.isEnable = false) :
    (step L C var s e).enabled = s.enabled ∧ (step L C var s e).magd = s.magd := by
  cases e with
  | orientation o =>
    simp only [step, onOrientationReading]
    split <;> simp
  | enable value lookup => simp [Event.isEnable] at he
  | tick rotation fov reading magnetoReading =>
    simp only [step, update]
    split
    · simp
    · cases reading <;> cases magnetoReading <;> simp

theorem run_not_enable_keeps (L : Libm K) (C : Core K) (var : Variant) (es : List (Event K))
    (s : State K) (hes : ∀ e ∈ es, e.isEnable = false) :
    (run L C var s es).enabled = s.enabled ∧ (run L C var s es).magd = s.magd := by
  induction es generalizing s with
  | nil => simp [run]
  | cons e rest ih =>
    have h1 := step_not_enable_keeps L C var s e (hes e (List.mem_cons_self e rest))
    have h2 := ih (step L C var s e) (fun e2 h => hes e2 (List.mem_cons_of_mem e h))
    simp only [run, List.foldl_cons] at h2 ⊢
    exact ⟨h2.1.trans h1.1, h2.2.trans h1.2⟩

theorem atan2_zero_one : realLibm.atan2 0 1 = 0 := by
  have h : (⟨1, 0⟩ : ℂ) = 1 := by apply Complex.ext <;> simp
  simp only [realLibm, h, Complex.arg_one]

theorem atan2_zero_zero : realLibm.atan2 0 0 = 0 := by
  have h : (⟨0, 0⟩ : ℂ) = 0 := by apply Complex.ext <;> simp
  simp only [realLibm, h, Complex.arg_zero]

theorem atan2_neg_one_zero : realLibm.atan2 (-1) 0 = -(Real.pi / 2) := by
  have h : (⟨0, -1⟩ : ℂ) = -Complex.I := by apply Complex.ext <;> simp
  simp only [realLibm, h, Complex.arg_neg_I]

theorem run_ticks_succ (L : Libm K) (C : Core K) (var : Variant) (s : State K)
    (rotation : Int) (fov : K) (r : Vec3 K) (ms : ℕ → Option (Vec3 K)) (n : ℕ) :
    run L C var s (ticks rotation fov r ms (n + 1))
      = update L C var rotation fov (some r) (ms n)
          (run L C var s (ticks rotation fov r ms n)) := by
  simp [ticks, run, List.range_succ, List.map_append, List.foldl_append, step]

theorem gravity_tick (C : Core ℝ) (k : Int) (m : Option (Vec3 ℝ)) (s : State ℝ)
    (he : s.enabled = true)
    (hq : s.firstMeasure = true ∨ s.accel = ⟨0, 0, 1⟩) :
    (update realLibm C Variant.identity k 60 (some ⟨0, 0, 9.80665⟩) m s).enabled = true ∧
      (update realLibm C Variant.identity k 60 (some ⟨0, 0, 9.80665⟩) m s).accel
        = ⟨0, 0, 1⟩ ∧
      (update realLibm C Variant.identity k 60 (some ⟨0, 0, 9.80665⟩) m s).defautAngleForGravityText
        = 0 := by
  have hacc : (update realLibm C Variant.identity k 60 (some ⟨0, 0, 9.80665⟩) m s).accel
      = ⟨0, 0, 1⟩ := by
    obtain ⟨hx, hy, hz, _⟩ :=
      update_sensor realLibm C Variant.identity k 60 ⟨0, 0, 9.80665⟩ m s he
    simp only [State.accel, hx, hy, hz]
    rcases hq with hf | ha
    · norm_num [hf, averagingCoef, mix, g]
    · simp only [State.accel, Vec3.mk.injEq] at ha
      obtain ⟨h1, h2, h3⟩ := ha
      rw [h1, h2, h3]
      simp only [Vec3.mk.injEq]
      refine ⟨?_, ?_, ?_⟩
      · norm_num [mix]
      · norm_num [mix]
      · have hg : (9.80665 : ℝ) / g = 1 := by norm_num [g]
        rw [hg]
        unfold mix
        ring
  refine ⟨?_, hacc, ?_⟩
  · cases m <;> simp [update, he]
  · have hv := (update_view realLibm C Variant.identity k 60 ⟨0, 0, 9.80665⟩ s he).1 m
    simp only [State.accel, Vec3.mk.injEq] at hacc
    rw [hv, hacc.1, hacc.2.1, hacc.2.2]
    simp only [roll, applyOrientation, applyOrientationNone, neg_zero, atan2_zero_zero]
    simp

theorem gravity_run (C : Core ℝ) (k : Int) (ms : ℕ → Option (Vec3 ℝ)) (s : State ℝ)
    (he : s.enabled = true) (hf : s.firstMeasure = true) (n : ℕ) :
    (run realLibm C Variant.identity s (ticks k 60 ⟨0, 0, 9.80665⟩ ms (n + 1))).enabled
        = true ∧
      (run realLibm C Variant.identity s (ticks k 60 ⟨0, 0, 9.80665⟩ ms (n + 1))).accel
        = ⟨0, 0, 1⟩ ∧
      (run realLibm C Variant.identity s
        (ticks k 60 ⟨0, 0, 9.80665⟩ ms (n + 1))).defautAngleForGravityText = 0 := by
  induction n with
  | zero =>
    rw [run_ticks_succ]
    exact gravity_tick C k (ms 0) _ he (Or.inl hf)
  | succ n ih =>
    rw [run_ticks_succ]
    exact gravity_tick C k (ms (n + 1)) _ ih.1 (Or.inr ih.2.1)

theorem roll_flat (k o : Int) :
    roll realLibm (applyOrientation Variant.identity k o ⟨0, 0, 1⟩) = 0 := by
  simp only [roll, applyOrientation, applyOrientationNone, neg_zero]
  exact atan2_zero_zero

theorem pitch_flat (k o : Int) :
    pitch realLibm (applyOrientation Variant.identity k o ⟨0, 0, 1⟩) = -(Real.pi / 2) := by
  simp only [pitch, applyOrientation, applyOrientationNone]
  have h0 : realLibm.sqrt (0 * 0 + 0 * 0) = 0 := by simp [realLibm]
  rw [h0]
  exact atan2_neg_one_zero

theorem tendsto_of_eq_succ (f : ℕ → ℝ) (a : ℝ) (h : ∀ n, f (n + 1) = a) :
    Filter.Tendsto f Filter.atTop (nhds a) := by
  have h1 : Filter.Tendsto (fun n => f (n + 1)) Filter.atTop (nhds a) := by
    simp only [h]
    exact tendsto_const_nhds
  exact (Filter.tendsto_add_atTop_iff_nat 1).mp h1

theorem diag_tick (C : Core ℝ) (k : Int) (m : Option (Vec3 ℝ)) (s : State ℝ)
    (he : s.enabled = true) (hf : s.firstMeasure = false) (hxy : s.sensorX = s.sensorY)
    (hpos : 0 < s.sensorX) :
    (update realLibm C Variant.identity k 60 (some ⟨0, 0, 9.80665⟩) m s).enabled = true ∧
      (update realLibm C Variant.identity k 60 (some ⟨0, 0, 9.80665⟩) m s).firstMeasure
        = false ∧
      (update realLibm C Variant.identity k 60 (some ⟨0, 0, 9.80665⟩) m s).sensorX
        = (update realLibm C Variant.identity k 60 (some ⟨0, 0, 9.80665⟩) m s).sensorY ∧
      0 < (update realLibm C Variant.identity k 60 (some ⟨0, 0, 9.80665⟩) m s).sensorX := by
  obtain ⟨hx, hy, _, hfm⟩ :=
    update_sensor realLibm C Variant.identity k 60 ⟨0, 0, 9.80665⟩ m s he
  have hc : (1 : ℝ) - averagingCoef false 60 > 0 := by
    have h : min ((60 : ℝ) / 130.0) 1.0 = 60 / 130 := by
      rw [min_eq_left] <;> norm_num
    simp only [averagingCoef, mix, h]
    norm_num
  refine ⟨?_, hfm, ?_, ?_⟩
  · cases m <;> simp [update, he]
  · rw [hx, hy, hxy]
  · rw [hx, hf]
    simp only [mix, zero_div, zero_mul, add_zero]
    exact mul_pos hpos hc

theorem diag_run (C : Core ℝ) (k : Int) (ms : ℕ → Option (Vec3 ℝ)) (s : State ℝ)
    (he : s.enabled = true) (hf : s.firstMeasure = false) (hxy : s.sensorX = s.sensorY)
    (hpos : 0 < s.sensorX) (n : ℕ) :
    (run realLibm C Variant.identity s (ticks k 60 ⟨0, 0, 9.80665⟩ ms n)).enabled = true ∧
      (run realLibm C Variant.identity s (ticks k 60 ⟨0, 0, 9.80665⟩ ms n)).firstMeasure
        = false ∧
      (run realLibm C Variant.identity s (ticks k 60 ⟨0, 0, 9.80665⟩ ms n)).sensorX
        = (run realLibm C Variant.identity s (ticks k 60 ⟨0, 0, 9.80665⟩ ms n)).sensorY ∧
      0 < (run realLibm C Variant.identity s (ticks k 60 ⟨0, 0, 9.80665⟩ ms n)).sensorX := by
  induction n with
  | zero => simpa [ticks, run] using ⟨he, hf, hxy, hpos⟩
  | succ n ih =>
    rw [run_ticks_succ]
    exact diag_tick C k (ms n) _ ih.1 ih.2.1 ih.2.2.1 ih.2.2.2

theorem atan2_neg_diag (q : ℝ) (hq : 0 < q) : realLibm.atan2 (-q) q = -(Real.pi / 4) := by
  have hθ : -(Real.pi / 4) ∈ Set.Ioc (-Real.pi) Real.pi := by
    constructor <;> linarith [Real.pi_pos]
  have hr : 0 < q * Real.sqrt 2 := mul_pos hq (Real.sqrt_pos.mpr (by norm_num))
  have hs : Real.sqrt 2 * Real.sqrt 2 = 2 := Real.mul_self_sqrt (by norm_num)
  have h : (⟨q, -q⟩ : ℂ)
      = ((q * Real.sqrt 2 : ℝ) : ℂ)
        * (Complex.cos ((-(Real.pi / 4) : ℝ) : ℂ)
          + Complex.sin ((-(Real.pi / 4) : ℝ) : ℂ) * Complex.I) := by
    rw [← Complex.ofReal_cos, ← Complex.ofReal_sin, Real.cos_neg, Real.sin_neg,
      Real.cos_pi_div_four, Real.sin_pi_div_four]
    apply Complex.ext
    · simp only [Complex.mul_re, Complex.ofReal_re, Complex.ofReal_im, Complex.add_re,
        Complex.add_im, Complex.mul_im, Complex.I_re, Complex.I_im, Complex.ofReal_neg,
        Complex.neg_re, Complex.neg_im]
      linear_combination (-(q / 2)) * hs
    · simp only [Complex.mul_re, Complex.ofReal_re, Complex.ofReal_im, Complex.add_re,
        Complex.add_im, Complex.mul_im, Complex.I_re, Complex.I_im, Complex.ofReal_neg,
        Complex.neg_re, Complex.neg_im]
      linear_combination (q / 2) * hs
  simp only [realLibm]
  rw [h]
  exact Complex.arg_mul_cos_add_sin_mul_I hr hθ

theorem roll_diag (k o : Int) (s : State ℝ) (hxy : s.sensorX = s.sensorY)
    (hpos : 0 < s.sensorX) :
    roll realLibm (applyOrientation Variant.identity k o s.accel) = -(Real.pi / 4) := by
  simp only [roll, applyOrientation, applyOrientationNone, State.accel, ← hxy]
  exact atan2_neg_diag s.sensorX hpos

theorem first_tick_magnet_snaps (L : Libm K) (C : Core K) (var : Variant) (rotation : Int)
    (fov : K) (r m : Vec3 K) (s : State K) (hs : s.enabled = true)
    (hf : s.firstMeasure = true) :
    (update L C var rotation fov (some r) (some m) s).magnetX = m.x ∧
      (update L C var rotation fov (some r) (some m) s).magnetY = m.y ∧
      (update L C var rotation fov (some r) (some m) s).magnetZ = m.z := by
  simp [update, hs, hf, smoothMagnet, averagingCoef, mix_one]

theorem step_mOrientation (L : Libm K) (C : Core K) (var : Variant) (s : State K)
    (e : Event K)
    (h : s.mOrientation = 0 ∨ s.mOrientation = 90 ∨ s.mOrientation = 180 ∨
      s.mOrientation = 270) :
    (step L C var s e).mOrientation = 0 ∨ (step L C var s e).mOrientation = 90 ∨
      (step L C var s e).mOrientation = 180 ∨ (step L C var s e).mOrientation = 270 := by
  cases e with
  | orientation o =>
    cases o <;> simp only [step, onOrientationReading] <;> split_ifs <;> simp_all
  | enable value lookup =>
    have hm : (setEnabled C value lookup s).mOrientation = s.mOrientation := by
      by_cases hv : value = s.enabled
      · simp [setEnabled, hv]
      · cases lookup <;> cases value <;> simp_all [setEnabled]
    simp only [step, hm]
    exact h
  | tick rotation fov reading magnetoReading =>
    have hm : (update L C var rotation fov reading magnetoReading s).mOrientation
        = s.mOrientation := by
      simp only [update]
      split
      · rfl
      · cases reading <;> cases magnetoReading <;> rfl
    simp only [step, hm]
    exact h

theorem abs_mk (u w : ℝ) : Complex.abs ⟨u, w⟩ = Real.sqrt (u * u + w * w) := by
  rw [Complex.abs_apply, Complex.normSq_apply]

theorem sqrt_mul_cos_atan2 (u w : ℝ) :
    Real.sqrt (u * u + w * w) * realLibm.cos (realLibm.atan2 w u) = u := by
  have h := Complex.abs_mul_cos_arg ⟨u, w⟩
  rw [abs_mk] at h
  exact h

theorem sqrt_mul_sin_atan2 (u w : ℝ) :
    Real.sqrt (u * u + w * w) * realLibm.sin (realLibm.atan2 w u) = w := by
  have h := Complex.abs_mul_sin_arg ⟨u, w⟩
  rw [abs_mk] at h
  exact h

theorem cos_sq_add_sin_sq_libm (a : ℝ) :
    realLibm.cos a * realLibm.cos a + realLibm.sin a * realLibm.sin a = 1 := by
  have h := Real.cos_sq_add_sin_sq a
  simp only [realLibm]
  nlinarith [h]

theorem rot2d_neg_roll (x y : ℝ) :
    rot2d realLibm x y (-(realLibm.atan2 (-x) y)) = (0, Real.sqrt (x * x + y * y)) := by
  have hc := sqrt_mul_cos_atan2 y (-x)
  have hs := sqrt_mul_sin_atan2 y (-x)
  have h1 := cos_sq_add_sin_sq_libm (realLibm.atan2 (-x) y)
  have hρ : y * y + -x * -x = x * x + y * y := by ring
  rw [hρ] at hc hs
  have hcn : realLibm.cos (-(realLibm.atan2 (-x) y)) = realLibm.cos (realLibm.atan2 (-x) y) := by
    simp only [realLibm, Real.cos_neg]
  have hsn : realLibm.sin (-(realLibm.atan2 (-x) y))
      = -realLibm.sin (realLibm.atan2 (-x) y) := by
    simp only [realLibm, Real.sin_neg]
  simp only [rot2d, hcn, hsn, Prod.mk.injEq]
  generalize realLibm.cos (realLibm.atan2 (-x) y) = c at hc hs h1
  generalize realLibm.sin (realLibm.atan2 (-x) y) = sn at hc hs h1
  generalize Real.sqrt (x * x + y * y) = ρ at hc hs
  constructor
  · rw [← hc]
    have hx : x = -(ρ * sn) := by linarith
    rw [hx]
    ring
  · have hx : x = -(ρ * sn) := by linarith
    rw [hx, ← hc]
    linear_combination ρ * h1

theorem rot2d_pitch (u z : ℝ) :
    rot2d realLibm u z (realLibm.atan2 (-z) u) = (Real.sqrt (u * u + z * z), 0) := by
  have hc := sqrt_mul_cos_atan2 u (-z)
  have hs := sqrt_mul_sin_atan2 u (-z)
  have h1 := cos_sq_add_sin_sq_libm (realLibm.atan2 (-z) u)
  have hρ : u * u + -z * -z = u * u + z * z := by ring
  rw [hρ] at hc hs
  simp only [rot2d, Prod.mk.injEq]
  generalize realLibm.cos (realLibm.atan2 (-z) u) = c at hc hs h1
  generalize realLibm.sin (realLibm.atan2 (-z) u) = sn at hc hs h1
  generalize Real.sqrt (u * u + z * z) = ρ at hc hs
  have hz : z = -(ρ * sn) := by linarith
  constructor
  · rw [hz, ← hc]
    linear_combination ρ * h1
  · rw [hz, ← hc]
    ring

theorem averagingCoef_le_one (fov : K) : averagingCoef false fov ≤ 1 := by
  have hform : averagingCoef false fov = 0.01 + (0.1 - 0.01) * min (fov / 130) 1 := by
    norm_num [averagingCoef, mix_eq_add]
  have h1 : min (fov / 130) 1 ≤ (1 : K) := min_le_right _ _
  rw [hform]
  nlinarith

theorem mix_sub (p t c : K) : mix p t c - t = (1 - c) * (p - t) := by
  unfold mix
  ring

theorem run_ticks_error (L : Libm K) (C : Core K) (var : Variant) (rotation : Int) (fov : K)
    (r : Vec3 K) (ms : ℕ → Option (Vec3 K)) (s : State K) (he : s.enabled = true)
    (hf : s.firstMeasure = false) (n : ℕ) :
    (run L C var s (ticks rotation fov r ms n)).enabled = true ∧
      (run L C var s (ticks rotation fov r ms n)).firstMeasure = false ∧
      (run L C var s (ticks rotation fov r ms n)).sensorX - r.x / g
        = (1 - averagingCoef false fov) ^ n * (s.sensorX - r.x / g) ∧
      (run L C var s (ticks rotation fov r ms n)).sensorY - r.y / g
        = (1 - averagingCoef false fov) ^ n * (s.sensorY - r.y / g) ∧
      (run L C var s (ticks rotation fov r ms n)).sensorZ - r.z / g
        = (1 - averagingCoef false fov) ^ n * (s.sensorZ - r.z / g) := by
  induction n with
  | zero => simp [ticks, run, he, hf]
  | succ n ih =>
    obtain ⟨ie, ifm, ix, iy, iz⟩ := ih
    rw [run_ticks_succ]
    obtain ⟨hx, hy, hz, hfm⟩ := update_sensor L C var rotation fov r (ms n) _ ie
    refine ⟨?_, hfm, ?_, ?_, ?_⟩
    · cases ms n <;> simp [update, ie]
    · rw [hx, ifm, mix_sub, ix, pow_succ]
      ring
    · rw [hy, ifm, mix_sub, iy, pow_succ]
      ring
    · rw [hz, ifm, mix_sub, iz, pow_succ]
      ring

theorem run_ticks_error_magnet (L : Libm K) (C : Core K) (var : Variant) (rotation : Int)
    (fov : K) (r m : Vec3 K) (s : State K) (he : s.enabled = true)
    (hf : s.firstMeasure = false) (n : ℕ) :
    (run L C var s (ticks rotation fov r (fun _ => some m) n)).enabled = true ∧
      (run L C var s (ticks rotation fov r (fun _ => some m) n)).firstMeasure = false ∧
      (run L C var s (ticks rotation fov r (fun _ => some m) n)).magnetX - m.x
        = (1 - averagingCoef false fov) ^ n * (s.magnetX - m.x) ∧
      (run L C var s (ticks rotation fov r (fun _ => some m) n)).magnetY - m.y
        = (1 - averagingCoef false fov) ^ n * (s.magnetY - m.y) ∧
      (run L C var s (ticks rotation fov r (fun _ => some m) n)).magnetZ - m.z
        = (1 - averagingCoef false fov) ^ n * (s.magnetZ - m.z) := by
  induction n with
  | zero => simp [ticks, run, he, hf]
  | succ n ih =>
    obtain ⟨ie, ifm, ix, iy, iz⟩ := ih
    rw [run_ticks_succ]
    refine ⟨?_, ?_, ?_, ?_, ?_⟩
    · simp [update, ie]
    · simp [update, ie]
    · have h : (update L C var rotation fov (some r) (some m)
          (run L C var s (ticks rotation fov r (fun _ => some m) n))).magnetX
          = mix (run L C var s (ticks rotation fov r (fun _ => some m) n)).magnetX m.x
              (averagingCoef false fov) := by
        simp [update, ie, ifm, smoothMagnet]
      rw [h, mix_sub, ix, pow_succ]
      ring
    · have h : (update L C var rotation fov (some r) (some m)
          (run L C var s (ticks rotation fov r (fun _ => some m) n))).magnetY
          = mix (run L C var s (ticks rotation fov r (fun _ => some m) n)).magnetY m.y
              (averagingCoef false fov) := by
        simp [update, ie, ifm, smoothMagnet]
      rw [h, mix_sub, iy, pow_succ]
      ring
    · have h : (update L C var rotation fov (some r) (some m)
          (run L C var s (ticks rotation fov r (fun _ => some m) n))).magnetZ
          = mix (run L C var s (ticks rotation fov r (fun _ => some m) n)).magnetZ m.z
              (averagingCoef false fov) := by
        simp [update, ie, ifm, smoothMagnet]
      rw [h, mix_sub, iz, pow_succ]
      ring

theorem abs_of_contraction (e e0 q : K) (n : ℕ) (hq : 0 ≤ q) (h : e = q ^ n * e0) :
    |e| = q ^ n * |e0| := by
  rw [h, abs_mul, abs_of_nonneg (pow_nonneg hq n)]

end Lemmas

/-! ## C1: first tick after enabling -/

section Claims

variable {K : Type} [LinearOrderedField K]

/-- C1 (as stated, refuted): from the constructed state, after `setEnabled(true)`, the first
tick with acceleration sample `(0, 0, 9.80665)` leaves `sensorZ = 1`, which is not the raw
sample component `9.80665`. -/
theorem first_tick_differs_from_raw_sample :
    (update realLibm (sampleCore realLibm) Variant.identity 0 60 (some ⟨0, 0, 9.80665⟩) none
        (setEnabled (sampleCore realLibm) true none
          (construct 0 ⟨1, 0, 0⟩ ⟨0, 0, 1⟩ 0))).sensorZ = 1 ∧
      (1 : ℝ) ≠ 9.80665 := by
  constructor
  · norm_num [update, setEnabled, construct, smoothAccel, averagingCoef, mix, g]
  · norm_num

/-- C1 (amended): starting from any disabled state, after `setEnabled(true)` and any calls
that blend no acceleration sample, the first `update` tick with an acceleration reading is
taken with coefficient 1, leaves each smoothed acceleration component equal to the sample
component divided by `g = 9.80665`, and clears `firstMeasure`. -/
theorem first_tick_snaps_to_sample_over_g (L : Libm K) (C : Core K) (var : Variant)
    (s : State K) (lookup : Option K) (es : List (Event K)) (rotation : Int) (fov : K)
    (r : Vec3 K) (m : Option (Vec3 K))
    (hs : s.enabled = false) (hes : ∀ e ∈ es, e.noAccel = true) :
    averagingCoef (run L C var (setEnabled C true lookup s) es).firstMeasure fov = 1 ∧
      (update L C var rotation fov (some r) m
        (run L C var (setEnabled C true lookup s) es)).sensorX = r.x / 9.80665 ∧
      (update L C var rotation fov (some r) m
        (run L C var (setEnabled C true lookup s) es)).sensorY = r.y / 9.80665 ∧
      (update L C var rotation fov (some r) m
        (run L C var (setEnabled C true lookup s) es)).sensorZ = r.z / 9.80665 ∧
      (update L C var rotation fov (some r) m
        (run L C var (setEnabled C true lookup s) es)).firstMeasure = false := by
  obtain ⟨he, hf⟩ := setEnabled_true_of_disabled C lookup s hs
  obtain ⟨he2, hf2, _⟩ := run_noAccel_keeps L C var es (setEnabled C true lookup s) hes
  rw [he] at he2
  rw [hf] at hf2
  obtain ⟨hx, hy, hz, hfm⟩ := update_sensor L C var rotation fov r m _ he2
  rw [hx, hy, hz, hf2]
  simp [averagingCoef, mix_one, hfm, g]

/-- Witness for C1 (amended): the constructed state, one tick without acceleration reading
and one orientation reading before the first sample `(3, 4, 9.80665)`. -/
theorem first_tick_snaps_to_sample_over_g_witness :
    averagingCoef (run realLibm (sampleCore realLibm) Variant.orientationSensor
        (setEnabled (sampleCore realLibm) true (some 2) (construct 0 ⟨1, 0, 0⟩ ⟨0, 0, 1⟩ 0))
        [Event.tick 0 60 none none, Event.orientation Orientation.LeftUp]).firstMeasure
        (60 : ℝ) = 1 ∧
      (update realLibm (sampleCore realLibm) Variant.orientationSensor 0 60
        (some ⟨3, 4, 9.80665⟩) none
        (run realLibm (sampleCore realLibm) Variant.orientationSensor
          (setEnabled (sampleCore realLibm) true (some 2) (construct 0 ⟨1, 0, 0⟩ ⟨0, 0, 1⟩ 0))
          [Event.tick 0 60 none none, Event.orientation Orientation.LeftUp])).sensorX
        = 3 / 9.80665 ∧
      (update realLibm (sampleCore realLibm) Variant.orientationSensor 0 60
        (some ⟨3, 4, 9.80665⟩) none
        (run realLibm (sampleCore realLibm) Variant.orientationSensor
          (setEnabled (sampleCore realLibm) true (some 2) (construct 0 ⟨1, 0, 0⟩ ⟨0, 0, 1⟩ 0))
          [Event.tick 0 60 none none, Event.orientation Orientation.LeftUp])).sensorY
        = 4 / 9.80665 ∧
      (update realLibm (sampleCore realLibm) Variant.orientationSensor 0 60
        (some ⟨3, 4, 9.80665⟩) none
        (run realLibm (sampleCore realLibm) Variant.orientationSensor
          (setEnabled (sampleCore realLibm) true (some 2) (construct 0 ⟨1, 0, 0⟩ ⟨0, 0, 1⟩ 0))
          [Event.tick 0 60 none none, Event.orientation Orientation.LeftUp])).sensorZ
        = 9.80665 / 9.80665 ∧
      (update realLibm (sampleCore realLibm) Variant.orientationSensor 0 60
        (some ⟨3, 4, 9.80665⟩) none
        (run realLibm (sampleCore realLibm) Variant.orientationSensor
          (setEnabled (sampleCore realLibm) true (some 2) (construct 0 ⟨1, 0, 0⟩ ⟨0, 0, 1⟩ 0))
          [Event.tick 0 60 none none, Event.orientation Orientation.LeftUp])).firstMeasure
        = false :=
  first_tick_snaps_to_sample_over_g realLibm (sampleCore realLibm) Variant.orientationSensor
    (construct 0 ⟨1, 0, 0⟩ ⟨0, 0, 1⟩ 0) (some 2)
    [Event.tick 0 60 none none, Event.orientation Orientation.LeftUp] 0 60
    ⟨3, 4, 9.80665⟩ none rfl (by simp [Event.noAccel])

/-! ## C2: the blend function -/

/-- C2: `mix a b 0 = a`, `mix a b 1 = b`; for every coefficient `c` in `[0, 1]` the value
`mix a b c = a * (1 - c) + b * c` lies between `a` and `b`; and for `a ≤ b` the value is
monotonic in the coefficient. -/
theorem mix_endpoints_between_monotone (a b : K) :
    mix a b 0 = a ∧ mix a b 1 = b ∧
      (∀ c : K, 0 ≤ c → c ≤ 1 →
        mix a b c = a * (1 - c) + b * c ∧ min a b ≤ mix a b c ∧ mix a b c ≤ max a b) ∧
      (a ≤ b → ∀ c1 c2 : K, 0 ≤ c1 → c1 ≤ c2 → c2 ≤ 1 → mix a b c1 ≤ mix a b c2) := by
  refine ⟨mix_zero a b, mix_one a b, ?_, ?_⟩
  · intro c h0 h1
    refine ⟨rfl, ?_, ?_⟩
    · rw [mix_eq_add]
      rcases le_total a b with hab | hab
      · rw [min_eq_left hab]
        nlinarith [mul_nonneg (sub_nonneg.mpr hab) h0]
      · rw [min_eq_right hab]
        nlinarith [mul_nonneg (sub_nonneg.mpr hab) (sub_nonneg.mpr h1)]
    · rw [mix_eq_add]
      rcases le_total a b with hab | hab
      · rw [max_eq_right hab]
        nlinarith [mul_nonneg (sub_nonneg.mpr hab) (sub_nonneg.mpr h1)]
      · rw [max_eq_left hab]
        nlinarith [mul_nonneg (sub_nonneg.mpr hab) h0]
  · intro hab c1 c2 _ h12 _
    rw [mix_eq_add, mix_eq_add]
    nlinarith [mul_nonneg (sub_nonneg.mpr hab) (sub_nonneg.mpr h12)]

/-- Witness for C2: `a = 2`, `b = 6`, coefficients `1/4` and `3/4` over the rationals. -/
theorem mix_endpoints_between_monotone_witness :
    (mix (2 : ℚ) 6 (1 / 4) = 2 * (1 - 1 / 4) + 6 * (1 / 4) ∧
        min (2 : ℚ) 6 ≤ mix 2 6 (1 / 4) ∧ mix (2 : ℚ) 6 (1 / 4) ≤ max 2 6) ∧
      mix (2 : ℚ) 6 (1 / 4) ≤ mix 2 6 (3 / 4) :=
  ⟨(mix_endpoints_between_monotone (2 : ℚ) 6).2.2.1 (1 / 4) (by norm_num) (by norm_num),
    (mix_endpoints_between_monotone (2 : ℚ) 6).2.2.2 (by norm_num) (1 / 4) (3 / 4)
      (by norm_num) (by norm_num) (by norm_num)⟩

/-! ## C3: the blend coefficient -/

/-- C3: the coefficient used by an `update` tick is `averagingCoef firstMeasure fov`; it is
`1` when `firstMeasure` is set and otherwise the linear interpolation from `0.01` to `0.1`
at `min (fov / 130) 1`; with `firstMeasure` clear it is `0.1` at `fov = 130`, `0.1` at
`fov = 260` and `0.01` at `fov = 0`. -/
theorem averagingCoef_values (L : Libm K) (C : Core K) (var : Variant) (rotation : Int)
    (fov : K) (r : Vec3 K) (m : Option (Vec3 K)) (s : State K) :
    (s.enabled = true →
        (update L C var rotation fov (some r) m s).sensorX
          = s.sensorX * (1 - averagingCoef s.firstMeasure fov)
            + r.x / 9.80665 * averagingCoef s.firstMeasure fov) ∧
      averagingCoef true fov = 1 ∧
      averagingCoef false fov = mix 0.01 0.1 (min (fov / 130) 1) ∧
      averagingCoef false fov = 0.01 + (0.1 - 0.01) * min (fov / 130) 1 ∧
      averagingCoef false (130 : K) = 0.1 ∧
      averagingCoef false (260 : K) = 0.1 ∧
      averagingCoef false (0 : K) = 0.01 := by
  refine ⟨?_, ?_, ?_, ?_, ?_, ?_, ?_⟩
  · intro hs
    rw [(update_sensor L C var rotation fov r m s hs).1]
    rfl
  · simp [averagingCoef]
  · norm_num [averagingCoef]
  · norm_num [averagingCoef, mix_eq_add]
  · norm_num [averagingCoef, mix]
  · have h : min ((260 : K) / 130) 1 = 1 := min_eq_right (by norm_num)
    norm_num [averagingCoef, mix, h]
  · have h : min ((0 : K) / 130) 1 = 0 := by
      rw [zero_div]
      exact min_eq_left zero_le_one
    norm_num [averagingCoef, mix, h]

/-- Witness for C3: an enabled state with `firstMeasure` clear and `sensorX = 1/2`,
sample `x = 9.80665`, `fov = 130`, over the reals. -/
theorem averagingCoef_values_witness :
    (update realLibm (sampleCore realLibm) Variant.identity 0 130 (some ⟨9.80665, 0, 0⟩) none
        { construct 0 ⟨1, 0, 0⟩ ⟨0, 0, 1⟩ 0 with
          enabled := true, firstMeasure := false, sensorX := 1 / 2 }).sensorX
      = (1 / 2 : ℝ) * (1 - averagingCoef false 130) + 9.80665 / 9.80665 * averagingCoef false 130 :=
  (averagingCoef_values realLibm (sampleCore realLibm) Variant.identity 0 (130 : ℝ)
    ⟨9.80665, 0, 0⟩ none
    { construct 0 ⟨1, 0, 0⟩ ⟨0, 0, 1⟩ 0 with
      enabled := true, firstMeasure := false, sensorX := 1 / 2 }).1 rfl

/-! ## C4: axis remap round trip -/

/-- C4: for every vector, applying `applyOrientation` with a first orientation and then
with a second one such that the two rotations sum to a multiple of 360 degrees returns the
original vector: for the Android variant (rotation codes `0..3`, 90 degrees each), for
the `mOrientation` variant (values `0, 90, 180, 270`), and for the identity variant. -/
theorem applyOrientation_round_trip (v : Vec3 K) :
    (∀ k1 k2 : Int, 0 ≤ k1 → k1 ≤ 3 → 0 ≤ k2 → k2 ≤ 3 → (90 * k1 + 90 * k2) % 360 = 0 →
        ∀ o1 o2 : Int,
          applyOrientation Variant.android k2 o2 (applyOrientation Variant.android k1 o1 v)
            = v) ∧
      (∀ o1 o2 : Int, (o1 = 0 ∨ o1 = 90 ∨ o1 = 180 ∨ o1 = 270) →
        (o2 = 0 ∨ o2 = 90 ∨ o2 = 180 ∨ o2 = 270) → (o1 + o2) % 360 = 0 →
        ∀ k1 k2 : Int,
          applyOrientation Variant.orientationSensor k2 o2
            (applyOrientation Variant.orientationSensor k1 o1 v) = v) ∧
      (∀ k1 k2 o1 o2 : Int,
        applyOrientation Variant.identity k2 o2 (applyOrientation Variant.identity k1 o1 v)
          = v) := by
  refine ⟨?_, ?_, ?_⟩
  · intro k1 k2 h1 h1' h2 h2' hsum o1 o2
    interval_cases k1 <;> interval_cases k2 <;>
      first
      | (exfalso; revert hsum; decide)
      | simp [applyOrientation, applyOrientationAndroid]
  · intro o1 o2 h1 h2 hsum k1 k2
    rcases h1 with rfl | rfl | rfl | rfl <;> rcases h2 with rfl | rfl | rfl | rfl <;>
      first
      | (exfalso; revert hsum; decide)
      | simp [applyOrientation, applyOrientationSensor]
  · intro k1 k2 o1 o2
    rfl

/-- Witness for C4: the vector `(1, 2, 3)`, Android codes `1` then `3`, and `mOrientation`
values `90` then `270`. -/
theorem applyOrientation_round_trip_witness :
    applyOrientation Variant.android 3 0 (applyOrientation Variant.android 1 0 (⟨1, 2, 3⟩ : Vec3 ℚ))
        = ⟨1, 2, 3⟩ ∧
      applyOrientation Variant.orientationSensor 0 270
        (applyOrientation Variant.orientationSensor 0 90 (⟨1, 2, 3⟩ : Vec3 ℚ)) = ⟨1, 2, 3⟩ :=
  ⟨(applyOrientation_round_trip (⟨1, 2, 3⟩ : Vec3 ℚ)).1 1 3 (by decide) (by decide) (by decide)
      (by decide) (by decide) 0 0,
    (applyOrientation_round_trip (⟨1, 2, 3⟩ : Vec3 ℚ)).2.1 90 270 (by decide) (by decide)
      (by decide) 0 0⟩

/-! ## C5: the orientation event handler -/

/-- C5: the orientation handler sets `mOrientation` to `0`, `90`, `180`, `270` on `TopUp`,
`LeftUp`, `TopDown`, `RightUp` whatever the previous state, keeps it on `Undefined`,
`FaceUp` and `FaceDown`, changes no other field, and delivering the same reading twice
gives the same state as delivering it once. -/
theorem onOrientationReading_spec (s : State K) (o : Orientation) :
    (onOrientationReading Orientation.TopUp s).mOrientation = 0 ∧
      (onOrientationReading Orientation.LeftUp s).mOrientation = 90 ∧
      (onOrientationReading Orientation.TopDown s).mOrientation = 180 ∧
      (onOrientationReading Orientation.RightUp s).mOrientation = 270 ∧
      onOrientationReading Orientation.Undefined s = s ∧
      onOrientationReading Orientation.FaceUp s = s ∧
      onOrientationReading Orientation.FaceDown s = s ∧
      onOrientationReading o s = { s with mOrientation := (onOrientationReading o s).mOrientation } ∧
      onOrientationReading o (onOrientationReading o s) = onOrientationReading o s := by
  refine ⟨?_, ?_, ?_, ?_, ?_, ?_, ?_, ?_, ?_⟩
  · simp only [onOrientationReading]
    split <;> simp_all
  · simp only [onOrientationReading]
    split <;> simp_all
  · simp only [onOrientationReading]
    split <;> simp_all
  · simp only [onOrientationReading]
    split <;> simp_all
  · simp [onOrientationReading]
  · simp [onOrientationReading]
  · simp [onOrientationReading]
  · cases o <;> simp only [onOrientationReading] <;> split_ifs with h <;> simp_all
  · cases o <;> simp only [onOrientationReading] <;> split_ifs <;> simp_all

/-! ## C6: roll and pitch at the axes -/

/-- C6: with the identity remap and the real `atan2` and `sqrt`, the roll and pitch that
`update` computes from the smoothed acceleration are: roll `0` for `(0, 1, 0)`; roll
`-π/2`, that is `-90` degrees, for `(1, 0, 0)`; roll `0` and pitch `π/2` or `-π/2` (it is
`-π/2`, that is `-90` degrees) for `(0, 0, 1)`; and the angle for gravity text written by an
`update` tick is that roll, in degrees, of the smoothed acceleration the tick stores. -/
theorem roll_pitch_at_axes (C : Core ℝ) (k o : Int) :
    roll realLibm (applyOrientation Variant.identity k o ⟨0, 1, 0⟩) = 0 ∧
      roll realLibm (applyOrientation Variant.identity k o ⟨1, 0, 0⟩) = -(Real.pi / 2) ∧
      roll realLibm (applyOrientation Variant.identity k o ⟨1, 0, 0⟩) * 180 / realLibm.pi
        = -90 ∧
      roll realLibm (applyOrientation Variant.identity k o ⟨0, 0, 1⟩) = 0 ∧
      (pitch realLibm (applyOrientation Variant.identity k o ⟨0, 0, 1⟩) = Real.pi / 2 ∨
        pitch realLibm (applyOrientation Variant.identity k o ⟨0, 0, 1⟩) = -(Real.pi / 2)) ∧
      pitch realLibm (applyOrientation Variant.identity k o ⟨0, 0, 1⟩) * 180 / realLibm.pi
        = -90 ∧
      (∀ (s : State ℝ) (fov : ℝ) (r : Vec3 ℝ) (m : Option (Vec3 ℝ)), s.enabled = true →
        (update realLibm C Variant.identity k fov (some r) m s).defautAngleForGravityText
          = roll realLibm (applyOrientation Variant.identity k o
              ⟨(update realLibm C Variant.identity k fov (some r) m s).sensorX,
                (update realLibm C Variant.identity k fov (some r) m s).sensorY,
                (update realLibm C Variant.identity k fov (some r) m s).sensorZ⟩) * 180
            / realLibm.pi) := by
  have hpi : Real.pi ≠ 0 := Real.pi_ne_zero
  have hr1 : roll realLibm (applyOrientation Variant.identity k o ⟨1, 0, 0⟩)
      = -(Real.pi / 2) := by
    simp only [roll, applyOrientation, applyOrientationNone]
    exact atan2_neg_one_zero
  have hp : pitch realLibm (applyOrientation Variant.identity k o ⟨0, 0, 1⟩)
      = -(Real.pi / 2) := by
    simp only [pitch, applyOrientation, applyOrientationNone]
    have h0 : realLibm.sqrt (0 * 0 + 0 * 0) = 0 := by simp [realLibm]
    rw [h0]
    exact atan2_neg_one_zero
  have hdeg : -(Real.pi / 2) * 180 / realLibm.pi = -90 := by
    simp only [realLibm]
    field_simp
    ring
  refine ⟨?_, hr1, ?_, ?_, Or.inr hp, ?_, ?_⟩
  · simp only [roll, applyOrientation, applyOrientationNone, neg_zero]
    exact atan2_zero_one
  · rw [hr1]
    exact hdeg
  · simp only [roll, applyOrientation, applyOrientationNone, neg_zero]
    exact atan2_zero_zero
  · rw [hp]
    exact hdeg
  · intro s fov r m hs
    exact (update_view realLibm C Variant.identity k fov r s hs).1 m

/-- Witness for C6: the constructed state once enabled, first sample `(0, 9.80665, 0)`. -/
theorem roll_pitch_at_axes_witness :
    (update realLibm (sampleCore realLibm) Variant.identity 0 60 (some ⟨0, 9.80665, 0⟩) none
        (setEnabled (sampleCore realLibm) true none
          (construct 0 ⟨1, 0, 0⟩ ⟨0, 0, 1⟩ 0))).defautAngleForGravityText
      = roll realLibm (applyOrientation Variant.identity 0 0
          ⟨(update realLibm (sampleCore realLibm) Variant.identity 0 60
              (some ⟨0, 9.80665, 0⟩) none
              (setEnabled (sampleCore realLibm) true none
                (construct 0 ⟨1, 0, 0⟩ ⟨0, 0, 1⟩ 0))).sensorX,
            (update realLibm (sampleCore realLibm) Variant.identity 0 60
              (some ⟨0, 9.80665, 0⟩) none
              (setEnabled (sampleCore realLibm) true none
                (construct 0 ⟨1, 0, 0⟩ ⟨0, 0, 1⟩ 0))).sensorY,
            (update realLibm (sampleCore realLibm) Variant.identity 0 60
              (some ⟨0, 9.80665, 0⟩) none
              (setEnabled (sampleCore realLibm) true none
                (construct 0 ⟨1, 0, 0⟩ ⟨0, 0, 1⟩ 0))).sensorZ⟩) * 180
        / realLibm.pi :=
  (roll_pitch_at_axes (sampleCore realLibm) 0 0).2.2.2.2.2.2
    (setEnabled (sampleCore realLibm) true none (construct 0 ⟨1, 0, 0⟩ ⟨0, 0, 1⟩ 0))
    60 ⟨0, 9.80665, 0⟩ none rfl

/-! ## C7: end-to-end scenario -/

/-- C7 (as stated, refuted): from the constructed state, after `setEnabled(true)` and one
tick fed `(0, 0, 9.80665)` at field of view `60` the pitch is `-π/2`, and over the ticks it
does not converge to `π/2` (90 degrees); and from the enabled state with smoothed
acceleration `(1, 1, 0)` and `firstMeasure` clear, where `setEnabled(true)` changes nothing,
the roll does not converge to `0`. -/
theorem gravity_feed_not_as_stated :
    pitch realLibm (applyOrientation Variant.identity 0 0
        (gravityFeed realLibm (sampleCore realLibm) 0 none (fun _ => none)
          (construct 0 ⟨1, 0, 0⟩ ⟨0, 0, 1⟩ 0) 1).accel) = -(Real.pi / 2) ∧
      ¬ Filter.Tendsto
        (fun n : ℕ => pitch realLibm (applyOrientation Variant.identity 0 0
          (gravityFeed realLibm (sampleCore realLibm) 0 none (fun _ => none)
            (construct 0 ⟨1, 0, 0⟩ ⟨0, 0, 1⟩ 0) n).accel))
        Filter.atTop (nhds (Real.pi / 2)) ∧
      ¬ Filter.Tendsto
        (fun n : ℕ => roll realLibm (applyOrientation Variant.identity 0 0
          (gravityFeed realLibm (sampleCore realLibm) 0 none (fun _ => none)
            { construct 0 ⟨1, 0, 0⟩ ⟨0, 0, 1⟩ 0 with
              enabled := true, firstMeasure := false, sensorX := 1, sensorY := 1 } n).accel))
        Filter.atTop (nhds 0) := by
  have hp : ∀ n : ℕ, pitch realLibm (applyOrientation Variant.identity 0 0
      (gravityFeed realLibm (sampleCore realLibm) 0 none (fun _ => none)
        (construct 0 ⟨1, 0, 0⟩ ⟨0, 0, 1⟩ 0) (n + 1)).accel) = -(Real.pi / 2) := by
    intro n
    have h := gravity_run (sampleCore realLibm) 0 (fun _ => none)
      (setEnabled (sampleCore realLibm) true none (construct 0 ⟨1, 0, 0⟩ ⟨0, 0, 1⟩ 0))
      rfl rfl n
    unfold gravityFeed
    rw [h.2.1]
    exact pitch_flat 0 0
  have hr : ∀ n : ℕ, roll realLibm (applyOrientation Variant.identity 0 0
      (gravityFeed realLibm (sampleCore realLibm) 0 none (fun _ => none)
        { construct 0 ⟨1, 0, 0⟩ ⟨0, 0, 1⟩ 0 with
          enabled := true, firstMeasure := false, sensorX := 1, sensorY := 1 }
        (n + 1)).accel) = -(Real.pi / 4) := by
    intro n
    have h := diag_run (sampleCore realLibm) 0 (fun _ => none)
      { construct 0 ⟨1, 0, 0⟩ ⟨0, 0, 1⟩ 0 with
        enabled := true, firstMeasure := false, sensorX := 1, sensorY := 1 }
      rfl rfl rfl (by norm_num [construct]) (n + 1)
    exact roll_diag 0 0 _ h.2.2.1 h.2.2.2
  refine ⟨hp 0, ?_, ?_⟩
  · intro hlim
    have h2 := tendsto_nhds_unique hlim (tendsto_of_eq_succ _ _ hp)
    linarith [Real.pi_pos]
  · intro hlim
    have h2 := tendsto_nhds_unique hlim (tendsto_of_eq_succ _ _ hr)
    linarith [Real.pi_pos]

/-- C7 (amended): starting from any state in which the manager is disabled, after
`setEnabled(true)` and any number `n ≥ 1` of `update` ticks each fed the acceleration
sample `(0, 0, 9.80665)` at field of view `60` with the identity remap, the roll is `0`, the
pitch is `-π/2` (`-90` degrees) and the angle for gravity text is `0`; so over the ticks
roll converges to `0`, pitch to `-90` degrees and the reference angle to `0`. -/
theorem gravity_feed_from_disabled (C : Core ℝ) (k o : Int) (lookup : Option ℝ)
    (ms : ℕ → Option (Vec3 ℝ)) (s : State ℝ) (n : ℕ)
    (hs : s.enabled = false) (hn : 1 ≤ n) :
    roll realLibm (applyOrientation Variant.identity k o
        (gravityFeed realLibm C k lookup ms s n).accel) = 0 ∧
      pitch realLibm (applyOrientation Variant.identity k o
        (gravityFeed realLibm C k lookup ms s n).accel) = -(Real.pi / 2) ∧
      pitch realLibm (applyOrientation Variant.identity k o
        (gravityFeed realLibm C k lookup ms s n).accel) * 180 / realLibm.pi = -90 ∧
      (gravityFeed realLibm C k lookup ms s n).defautAngleForGravityText = 0 ∧
      Filter.Tendsto
        (fun i : ℕ => roll realLibm (applyOrientation Variant.identity k o
          (gravityFeed realLibm C k lookup ms s i).accel))
        Filter.atTop (nhds 0) ∧
      Filter.Tendsto
        (fun i : ℕ => pitch realLibm (applyOrientation Variant.identity k o
          (gravityFeed realLibm C k lookup ms s i).accel) * 180 / realLibm.pi)
        Filter.atTop (nhds (-90)) ∧
      Filter.Tendsto
        (fun i : ℕ => (gravityFeed realLibm C k lookup ms s i).defautAngleForGravityText)
        Filter.atTop (nhds 0) := by
  obtain ⟨he, hf⟩ := setEnabled_true_of_disabled C lookup s hs
  have hrun := gravity_run C k ms (setEnabled C true lookup s) he hf
  have hdeg : -(Real.pi / 2) * 180 / realLibm.pi = -90 := by
    have hpi : Real.pi ≠ 0 := Real.pi_ne_zero
    simp only [realLibm]
    field_simp
    ring
  have hr : ∀ i : ℕ, roll realLibm (applyOrientation Variant.identity k o
      (gravityFeed realLibm C k lookup ms s (i + 1)).accel) = 0 := by
    intro i
    unfold gravityFeed
    rw [(hrun i).2.1]
    exact roll_flat k o
  have hp : ∀ i : ℕ, pitch realLibm (applyOrientation Variant.identity k o
      (gravityFeed realLibm C k lookup ms s (i + 1)).accel) = -(Real.pi / 2) := by
    intro i
    unfold gravityFeed
    rw [(hrun i).2.1]
    exact pitch_flat k o
  have ha : ∀ i : ℕ,
      (gravityFeed realLibm C k lookup ms s (i + 1)).defautAngleForGravityText = 0 :=
    fun i => (hrun i).2.2
  obtain ⟨j, rfl⟩ : ∃ j, n = j + 1 := ⟨n - 1, by omega⟩
  refine ⟨hr j, hp j, ?_, ha j, tendsto_of_eq_succ _ _ hr, ?_, tendsto_of_eq_succ _ _ ha⟩
  · rw [hp j]
    exact hdeg
  · apply tendsto_of_eq_succ
    intro i
    rw [hp i]
    exact hdeg

/-- Witness for C7 (amended): the constructed state, three ticks. -/
theorem gravity_feed_from_disabled_witness :
    roll realLibm (applyOrientation Variant.identity 0 0
        (gravityFeed realLibm (sampleCore realLibm) 0 none (fun _ => none)
          (construct 0 ⟨1, 0, 0⟩ ⟨0, 0, 1⟩ 0) 3).accel) = 0 ∧
      pitch realLibm (applyOrientation Variant.identity 0 0
        (gravityFeed realLibm (sampleCore realLibm) 0 none (fun _ => none)
          (construct 0 ⟨1, 0, 0⟩ ⟨0, 0, 1⟩ 0) 3).accel) = -(Real.pi / 2) :=
  ⟨(gravity_feed_from_disabled (sampleCore realLibm) 0 0 none (fun _ => none)
      (construct 0 ⟨1, 0, 0⟩ ⟨0, 0, 1⟩ 0) 3 rfl (by norm_num)).1,
    (gravity_feed_from_disabled (sampleCore realLibm) 0 0 none (fun _ => none)
      (construct 0 ⟨1, 0, 0⟩ ⟨0, 0, 1⟩ 0) 3 rfl (by norm_num)).2.1⟩

/-! ## C8: disabling resets the view -/

/-- C8: from every enabled state, `setEnabled(false)` sets the view up vector to
`altAzToJ2000 (0, 0, 1)` and the angle for gravity text to `0` (and clears `enabled`). -/
theorem setEnabled_false_resets_view (C : Core K) (lookup : Option K) (s : State K)
    (hs : s.enabled = true) :
    (setEnabled C false lookup s).viewUpVectorJ2000 = C.altAzToJ2000 ⟨0, 0, 1⟩ ∧
      (setEnabled C false lookup s).defautAngleForGravityText = 0 ∧
      (setEnabled C false lookup s).enabled = false := by
  cases lookup <;> simp [setEnabled, hs]

/-- Witness for C8: an enabled state with up vector `(1, 0, 0)` and angle `37`. -/
theorem setEnabled_false_resets_view_witness :
    (setEnabled (sampleCore realLibm) false none
        { construct 0 ⟨1, 0, 0⟩ ⟨1, 0, 0⟩ 37 with enabled := true }).viewUpVectorJ2000
        = (sampleCore realLibm).altAzToJ2000 ⟨0, 0, 1⟩ ∧
      (setEnabled (sampleCore realLibm) false none
        { construct 0 ⟨1, 0, 0⟩ ⟨1, 0, 0⟩ 37 with enabled := true }).defautAngleForGravityText
        = 0 ∧
      (setEnabled (sampleCore realLibm) false none
        { construct 0 ⟨1, 0, 0⟩ ⟨1, 0, 0⟩ 37 with enabled := true }).enabled = false :=
  setEnabled_false_resets_view (sampleCore realLibm) none
    { construct 0 ⟨1, 0, 0⟩ ⟨1, 0, 0⟩ 37 with enabled := true } rfl

/-! ## C9: setEnabled with the current value -/

/-- C9: `setEnabled(v)` on a state whose `enabled` flag already equals `v` returns the state
unchanged (every field of the manager, the sensor subscriptions and the view); hence
calling `setEnabled(v)` twice gives the same state as calling it once. -/
theorem setEnabled_same_value_noop (C : Core K) (v : Bool) (lookup lookup2 : Option K)
    (s : State K) :
    (s.enabled = v → setEnabled C v lookup s = s) ∧
      setEnabled C v lookup2 (setEnabled C v lookup s) = setEnabled C v lookup s := by
  have h1 : ∀ (l : Option K) (t : State K), t.enabled = v → setEnabled C v l t = t := by
    intro l t ht
    simp [setEnabled, ht]
  have h2 : (setEnabled C v lookup s).enabled = v := by
    by_cases h : v = s.enabled
    · simp [setEnabled, h]
    · cases lookup <;> cases v <;> simp_all [setEnabled]
  exact ⟨h1 lookup s, h1 lookup2 _ h2⟩

/-- Witness for C9: `setEnabled(false)` on the constructed (disabled) state. -/
theorem setEnabled_same_value_noop_witness :
    setEnabled (sampleCore realLibm) false (some 3) (construct 0 ⟨1, 0, 0⟩ ⟨0, 0, 1⟩ 0)
      = construct 0 ⟨1, 0, 0⟩ ⟨0, 0, 1⟩ 0 :=
  (setEnabled_same_value_noop (sampleCore realLibm) false (some 3) none
    (construct 0 ⟨1, 0, 0⟩ ⟨0, 0, 1⟩ 0)).1 rfl

/-! ## C10: failed declination lookup -/

/-- C10: when `setEnabled(true)` takes effect on a disabled state and its declination lookup
fails, the call completes with `enabled = true` and `magd = 0`; and after any further calls
other than `setEnabled`, an `update` tick with both readings present writes the view
direction built from the azimuth `atan2(-x_proj, z_proj)`, with no declination offset, and
the pitch. -/
theorem lookup_failure_keeps_azimuth (L : Libm K) (C : Core K) (var : Variant) (s : State K)
    (es : List (Event K)) (rotation : Int) (fov : K) (r m : Vec3 K)
    (hs : s.enabled = false) (hes : ∀ e ∈ es, e.isEnable = false) :
    (setEnabled C true none s).enabled = true ∧
      (setEnabled C true none s).magd = 0 ∧
      ∀ t : State K,
        t = update L C var rotation fov (some r) (some m)
              (run L C var (setEnabled C true none s) es) →
        ∀ v w : Vec3 K,
          v = applyOrientation var rotation t.mOrientation ⟨t.sensorX, t.sensorY, t.sensorZ⟩ →
          w = magProj L (roll L v) (pitch L v)
                (applyOrientation var rotation t.mOrientation
                  ⟨t.magnetX, t.magnetY, t.magnetZ⟩) →
          t.viewDirectionJ2000
            = C.altAzToJ2000 (C.spheToRect (L.atan2 (-w.x) w.z) (pitch L v)) := by
  have he : (setEnabled C true none s).enabled = true :=
    (setEnabled_true_of_disabled C none s hs).1
  have hm : (setEnabled C true none s).magd = 0 := by
    simp [setEnabled, hs]
  obtain ⟨he2, hm2⟩ := run_not_enable_keeps L C var es (setEnabled C true none s) hes
  rw [he] at he2
  rw [hm] at hm2
  refine ⟨he, hm, ?_⟩
  intro t ht v w hv hw
  subst hw hv ht
  simp [update, he2, hm2, azimuth, smoothAccel, smoothMagnet]

/-- Witness for C10: the constructed state, one tick with both readings between the
failed lookup and the tick observed; the stored declination is `0`. -/
theorem lookup_failure_keeps_azimuth_witness :
    (setEnabled (sampleCore realLibm) true none (construct 5 ⟨1, 0, 0⟩ ⟨0, 0, 1⟩ 0)).magd
      = 0 :=
  (lookup_failure_keeps_azimuth realLibm (sampleCore realLibm) Variant.orientationSensor
    (construct 5 ⟨1, 0, 0⟩ ⟨0, 0, 1⟩ 0)
    [Event.tick 0 60 (some ⟨0, 9.80665, 0⟩) (some ⟨20, 0, -40⟩)] 0 60
    ⟨0, 9.80665, 0⟩ ⟨20, 0, -40⟩ rfl (by simp [Event.isEnable])).2.1

/-! ## C11: skipped ticks -/

/-- C11: an `update` tick whose acceleration reading is absent, or that runs while the
manager is disabled, returns the state unchanged: the smoothed acceleration and magnetic
state and `firstMeasure` keep their values and no view field is written. -/
theorem update_skipped (L : Libm K) (C : Core K) (var : Variant) (rotation : Int) (fov : K)
    (reading m : Option (Vec3 K)) (s : State K) :
    update L C var rotation fov none m s = s ∧
      (s.enabled = false → update L C var rotation fov reading m s = s) := by
  refine ⟨?_, ?_⟩
  · simp only [update]
    split <;> rfl
  · intro hs
    simp [update, hs]

/-- Witness for C11: the constructed (disabled) state, a tick with both readings present. -/
theorem update_skipped_witness :
    update realLibm (sampleCore realLibm) Variant.identity 0 60
        (some ⟨0, 0, 9.80665⟩) (some ⟨20, 0, -40⟩) (construct 0 ⟨1, 0, 0⟩ ⟨0, 0, 1⟩ 0)
      = construct 0 ⟨1, 0, 0⟩ ⟨0, 0, 1⟩ 0 :=
  (update_skipped realLibm (sampleCore realLibm) Variant.identity 0 60
    (some ⟨0, 0, 9.80665⟩) (some ⟨20, 0, -40⟩) (construct 0 ⟨1, 0, 0⟩ ⟨0, 0, 1⟩ 0)).2 rfl

/-! ## C12: tick without magnetic reading -/

/-- C12: an enabled `update` tick with an acceleration reading and no magnetic reading
leaves `magnetX`, `magnetY`, `magnetZ` (and `magd`) unchanged and uses no azimuth: the view
direction it writes is built from the longitude of the current direction and the pitch.
It still sets the angle for gravity text to `roll * 180 / pi` and the up vector to
`(0, 0, 1)` rotated by `roll` about the horizontal view axis `spheToRect(lng, 0)`, converted
with `altAzToJ2000`. -/
theorem update_without_magnet (L : Libm K) (C : Core K) (var : Variant) (rotation : Int)
    (fov : K) (r : Vec3 K) (s : State K) (hs : s.enabled = true) :
    ∀ t : State K, t = update L C var rotation fov (some r) none s →
      ∀ (v : Vec3 K) (lng : K),
        v = applyOrientation var rotation s.mOrientation t.accel →
        lng = (C.rectToSphe (C.j2000ToAltAz s.viewDirectionJ2000)).1 →
        t.magnetX = s.magnetX ∧ t.magnetY = s.magnetY ∧ t.magnetZ = s.magnetZ ∧
          t.magd = s.magd ∧
          t.viewDirectionJ2000 = C.altAzToJ2000 (C.spheToRect lng (pitch L v)) ∧
          t.defautAngleForGravityText = roll L v * 180 / L.pi ∧
          t.viewUpVectorJ2000
            = C.altAzToJ2000 (C.rotation (C.spheToRect lng 0) (roll L v) ⟨0, 0, 1⟩) := by
  intro t ht v lng hv hl
  subst hv hl ht
  simp [update, hs, State.accel, smoothAccel]

/-- Witness for C12: an enabled state with smoothed magnetic vector `(7, 8, 9)`; the tick
with sample `(0, 9.80665, 0)` and no magnetic reading keeps `magnetX = 7`. -/
theorem update_without_magnet_witness :
    (update realLibm (sampleCore realLibm) Variant.identity 0 60 (some ⟨0, 9.80665, 0⟩) none
        { construct 0 ⟨1, 0, 0⟩ ⟨0, 0, 1⟩ 0 with
          enabled := true, magnetX := 7, magnetY := 8, magnetZ := 9 }).magnetX = 7 :=
  (update_without_magnet realLibm (sampleCore realLibm) Variant.identity 0 60
    ⟨0, 9.80665, 0⟩
    { construct 0 ⟨1, 0, 0⟩ ⟨0, 0, 1⟩ 0 with
      enabled := true, magnetX := 7, magnetY := 8, magnetZ := 9 } rfl _ rfl _ _ rfl rfl).1

/-! ## C13: source of the longitude -/

/-- C13: in every `update` tick that is not skipped (manager enabled, acceleration reading
present) the view direction left by the tick is `altAzToJ2000 (spheToRect (lon, pitch))`:
its latitude is the pitch, and its longitude is the computed azimuth when a magnetic
reading is present and otherwise the longitude obtained by decomposing, in the horizontal
frame, the view direction held at the start of the tick. -/
theorem view_direction_longitude (L : Libm K) (C : Core K) (var : Variant) (rotation : Int)
    (fov : K) (r : Vec3 K) (s : State K) (hs : s.enabled = true) :
    (∀ t : State K, t = update L C var rotation fov (some r) none s →
        t.viewDirectionJ2000
          = C.altAzToJ2000 (C.spheToRect
              (C.rectToSphe (C.j2000ToAltAz s.viewDirectionJ2000)).1
              (pitch L (applyOrientation var rotation s.mOrientation t.accel)))) ∧
      (∀ (m : Vec3 K) (t : State K), t = update L C var rotation fov (some r) (some m) s →
        t.viewDirectionJ2000
          = C.altAzToJ2000 (C.spheToRect
              (azimuth L
                (roll L (applyOrientation var rotation s.mOrientation t.accel))
                (pitch L (applyOrientation var rotation s.mOrientation t.accel))
                s.magd
                (applyOrientation var rotation s.mOrientation
                  ⟨t.magnetX, t.magnetY, t.magnetZ⟩))
              (pitch L (applyOrientation var rotation s.mOrientation t.accel)))) := by
  refine ⟨?_, ?_⟩
  · intro t ht
    subst ht
    simp [update, hs, State.accel, smoothAccel]
  · intro m t ht
    subst ht
    simp [update, hs, State.accel, smoothAccel, smoothMagnet]

/-- Witness for C13: an enabled state looking along `(1, 0, 0)`, a tick with sample
`(0, 9.80665, 0)` and no magnetic reading. -/
theorem view_direction_longitude_witness :
    (update realLibm (sampleCore realLibm) Variant.identity 0 60 (some ⟨0, 9.80665, 0⟩) none
        { construct 0 ⟨1, 0, 0⟩ ⟨0, 0, 1⟩ 0 with enabled := true }).viewDirectionJ2000
      = (sampleCore realLibm).altAzToJ2000 ((sampleCore realLibm).spheToRect
          ((sampleCore realLibm).rectToSphe ((sampleCore realLibm).j2000ToAltAz
            ({ construct 0 ⟨1, 0, 0⟩ ⟨0, 0, 1⟩ 0 with
              enabled := true } : State ℝ).viewDirectionJ2000)).1
          (pitch realLibm (applyOrientation Variant.identity 0
            ({ construct 0 ⟨1, 0, 0⟩ ⟨0, 0, 1⟩ 0 with enabled := true } : State ℝ).mOrientation
            (update realLibm (sampleCore realLibm) Variant.identity 0 60
              (some ⟨0, 9.80665, 0⟩) none
              { construct 0 ⟨1, 0, 0⟩ ⟨0, 0, 1⟩ 0 with enabled := true }).accel))) :=
  (view_direction_longitude realLibm (sampleCore realLibm) Variant.identity 0 60
    ⟨0, 9.80665, 0⟩ { construct 0 ⟨1, 0, 0⟩ ⟨0, 0, 1⟩ 0 with enabled := true } rfl).1 _ rfl

/-! ## C15: the coefficient as a function of the field of view -/

/-- C15: with `firstMeasure` clear the blend coefficient is non-decreasing in the field of
view, and for every `fov ≥ 0` it lies in `[0.01, 0.1]`. -/
theorem averagingCoef_monotone_bounded :
    (∀ fov1 fov2 : K, fov1 ≤ fov2 → averagingCoef false fov1 ≤ averagingCoef false fov2) ∧
      (∀ fov : K, 0 ≤ fov →
        0.01 ≤ averagingCoef false fov ∧ averagingCoef false fov ≤ 0.1) := by
  have hform : ∀ fov : K,
      averagingCoef false fov = 0.01 + (0.1 - 0.01) * min (fov / 130) 1 := by
    intro fov
    norm_num [averagingCoef, mix_eq_add]
  refine ⟨?_, ?_⟩
  · intro fov1 fov2 h
    rw [hform, hform]
    have hm : min (fov1 / 130) 1 ≤ min (fov2 / 130) (1 : K) :=
      min_le_min (div_le_div_of_nonneg_right h (by norm_num)) le_rfl
    have hc : (0 : K) ≤ 0.1 - 0.01 := by norm_num
    nlinarith [mul_le_mul_of_nonneg_left hm hc]
  · intro fov h
    rw [hform]
    have h0 : (0 : K) ≤ min (fov / 130) 1 := le_min (div_nonneg h (by norm_num)) zero_le_one
    have h1 : min (fov / 130) 1 ≤ (1 : K) := min_le_right _ _
    constructor
    · nlinarith
    · nlinarith

/-- Witness for C15: fields of view `30 ≤ 60` over the rationals. -/
theorem averagingCoef_monotone_bounded_witness :
    averagingCoef false (30 : ℚ) ≤ averagingCoef false 60 ∧
      ((0.01 : ℚ) ≤ averagingCoef false 60 ∧ averagingCoef false (60 : ℚ) ≤ 0.1) :=
  ⟨(averagingCoef_monotone_bounded).1 (30 : ℚ) 60 (by norm_num),
    (averagingCoef_monotone_bounded).2 (60 : ℚ) (by norm_num)⟩

/-! ## C14: the azimuth -/

/-- C14 (as stated, refuted): with smoothed acceleration `(0, 1, 0)` (roll `0`, pitch `0`),
remapped smoothed magnetic vector `(0, 0, 1)` and stored declination `magd = 1`, the
azimuth of `update` is `-0.0174533`, which is not `atan2(-x_proj, z_proj)` minus one
degree expressed in radians, `π / 180`. -/
theorem azimuth_declination_not_radians :
    azimuth realLibm (roll realLibm ⟨0, 1, 0⟩) (pitch realLibm ⟨0, 1, 0⟩) 1 ⟨0, 0, 1⟩
        = -0.0174533 ∧
      azimuth realLibm (roll realLibm ⟨0, 1, 0⟩) (pitch realLibm ⟨0, 1, 0⟩) 1 ⟨0, 0, 1⟩
        ≠ realLibm.atan2
            (-(magProj realLibm (roll realLibm ⟨0, 1, 0⟩) (pitch realLibm ⟨0, 1, 0⟩)
              ⟨0, 0, 1⟩).x)
            (magProj realLibm (roll realLibm ⟨0, 1, 0⟩) (pitch realLibm ⟨0, 1, 0⟩)
              ⟨0, 0, 1⟩).z
          - 1 * (Real.pi / 180) := by
  have hr : roll realLibm ⟨0, 1, 0⟩ = 0 := by
    simp only [roll, neg_zero]
    exact atan2_zero_one
  have hp : pitch realLibm ⟨0, 1, 0⟩ = 0 := by
    have h1 : realLibm.sqrt (0 * 0 + 1 * 1) = 1 := by simp [realLibm]
    simp only [pitch, neg_zero, h1]
    exact atan2_zero_one
  have hm : magProj realLibm 0 0 ⟨0, 0, 1⟩ = ⟨0, 0, 1⟩ := by
    simp [magProj, rot2d, realLibm]
  have ha : azimuth realLibm 0 0 1 ⟨0, 0, 1⟩ = -0.0174533 := by
    simp only [azimuth, hm, neg_zero, atan2_zero_one]
    norm_num
  rw [hr, hp, ha, hm]
  refine ⟨rfl, ?_⟩
  simp only [neg_zero, atan2_zero_one]
  intro h
  have hpi := Real.pi_lt_d6
  norm_num at h hpi
  linarith

/-- C14 (amended): when both readings are present in an enabled tick, the azimuth used for
the view direction is `atan2(-x_proj, z_proj) - magd * 0.0174533`, with `magd` the stored
declination and `0.0174533` the conversion factor written in the code, where `x_proj` and
`z_proj` come from the smoothed, remapped magnetic vector rotated first by `-roll` in the
x/y plane and then by `pitch` in the resulting y/z plane. -/
theorem azimuth_formula (L : Libm K) (C : Core K) (var : Variant) (rotation : Int)
    (fov : K) (r m : Vec3 K) (s : State K) (hs : s.enabled = true) :
    ∀ t : State K, t = update L C var rotation fov (some r) (some m) s →
      ∀ (v w : Vec3 K) (rollA pitchA x1 y1 y2 z2 : K),
        v = applyOrientation var rotation s.mOrientation t.accel →
        w = applyOrientation var rotation s.mOrientation ⟨t.magnetX, t.magnetY, t.magnetZ⟩ →
        rollA = L.atan2 (-v.x) v.y →
        pitchA = L.atan2 (-v.z) (L.sqrt (v.x * v.x + v.y * v.y)) →
        x1 = w.x * L.cos (-rollA) - w.y * L.sin (-rollA) →
        y1 = w.x * L.sin (-rollA) + w.y * L.cos (-rollA) →
        y2 = y1 * L.cos pitchA - w.z * L.sin pitchA →
        z2 = y1 * L.sin pitchA + w.z * L.cos pitchA →
        magProj L rollA pitchA w = ⟨x1, y2, z2⟩ ∧
          t.viewDirectionJ2000
            = C.altAzToJ2000 (C.spheToRect (L.atan2 (-x1) z2 - s.magd * 0.0174533)
                pitchA) := by
  intro t ht v w rollA pitchA x1 y1 y2 z2 hv hw hr hp hx1 hy1 hy2 hz2
  subst hz2 hy2 hy1 hx1 hp hr hw hv ht
  simp [update, hs, State.accel, smoothAccel, smoothMagnet, azimuth, magProj, rot2d,
    roll, pitch]

/-- Witness for C14 (amended): an enabled state with `magd = 1`, sample `(0, 9.80665, 0)`
and magnetic reading `(0, 0, 1)`; the two-step rotation value is the one `update` uses. -/
theorem azimuth_formula_witness :
    magProj realLibm (realLibm.atan2 (-(0 : ℝ)) 1)
        (realLibm.atan2 (-(0 : ℝ)) (realLibm.sqrt (0 * 0 + 1 * 1))) ⟨0, 0, 1⟩
      = ⟨0 * realLibm.cos (-(realLibm.atan2 (-(0 : ℝ)) 1))
            - 0 * realLibm.sin (-(realLibm.atan2 (-(0 : ℝ)) 1)),
          (0 * realLibm.sin (-(realLibm.atan2 (-(0 : ℝ)) 1))
              + 0 * realLibm.cos (-(realLibm.atan2 (-(0 : ℝ)) 1)))
            * realLibm.cos (realLibm.atan2 (-(0 : ℝ)) (realLibm.sqrt (0 * 0 + 1 * 1)))
            - 1 * realLibm.sin (realLibm.atan2 (-(0 : ℝ)) (realLibm.sqrt (0 * 0 + 1 * 1))),
          (0 * realLibm.sin (-(realLibm.atan2 (-(0 : ℝ)) 1))
              + 0 * realLibm.cos (-(realLibm.atan2 (-(0 : ℝ)) 1)))
            * realLibm.sin (realLibm.atan2 (-(0 : ℝ)) (realLibm.sqrt (0 * 0 + 1 * 1)))
            + 1 * realLibm.cos (realLibm.atan2 (-(0 : ℝ)) (realLibm.sqrt (0 * 0 + 1 * 1)))⟩ :=
  (azimuth_formula realLibm (sampleCore realLibm) Variant.identity 0 60 ⟨0, 9.80665, 0⟩
    ⟨0, 0, 1⟩
    { construct 1 ⟨1, 0, 0⟩ ⟨0, 0, 1⟩ 0 with enabled := true } rfl
    _ rfl ⟨0, 1, 0⟩ ⟨0, 0, 1⟩ _ _ _ _ _ _
    (by norm_num [update, State.accel, smoothAccel, averagingCoef, mix, g, construct,
      applyOrientation, applyOrientationNone])
    (by norm_num [update, smoothMagnet, averagingCoef, mix, construct,
      applyOrientation, applyOrientationNone])
    rfl rfl rfl rfl rfl rfl).1

/-! ## C16: first magnetic sample -/

/-- C16 (evaluation at the failing input): from the constructed state, `setEnabled(true)`,
then a tick with acceleration `(0, 0, 9.80665)` and no magnetic reading, then a tick with
the same acceleration and the first magnetic sample `(10, 0, 0)`, both at field of view
`130`: the second tick blends with coefficient `0.1`, `firstMeasure` having been cleared by
the first one, and leaves `magnetX = 1`, not `10`. -/
theorem late_magnet_sample_not_snapped :
    (run realLibm (sampleCore realLibm) Variant.identity
        (setEnabled (sampleCore realLibm) true none (construct 0 ⟨1, 0, 0⟩ ⟨0, 0, 1⟩ 0))
        [Event.tick 0 130 (some ⟨0, 0, 9.80665⟩) none]).firstMeasure = false ∧
      averagingCoef false (130 : ℝ) = 0.1 ∧
      (run realLibm (sampleCore realLibm) Variant.identity
        (setEnabled (sampleCore realLibm) true none (construct 0 ⟨1, 0, 0⟩ ⟨0, 0, 1⟩ 0))
        [Event.tick 0 130 (some ⟨0, 0, 9.80665⟩) none,
          Event.tick 0 130 (some ⟨0, 0, 9.80665⟩) (some ⟨10, 0, 0⟩)]).magnetX = 1 ∧
      (1 : ℝ) ≠ 10 := by
  refine ⟨?_, ?_, ?_, by norm_num⟩
  · simp [run, step, update, setEnabled, construct]
  · norm_num [averagingCoef, mix]
  · norm_num [run, step, update, setEnabled, construct, smoothMagnet, averagingCoef, mix]

/-! ## C17: the tracked screen orientation -/

/-- C17: in every state reached from the constructed state by any sequence of orientation
readings, `setEnabled` calls and `update` ticks, `mOrientation` is one of `0`, `90`, `180`,
`270`, the four values listed in the switch of `applyOrientation`. -/
theorem mOrientation_invariant (L : Libm K) (C : Core K) (var : Variant) (magd : K)
    (viewDirection viewUp : Vec3 K) (angle : K) (es : List (Event K)) :
    (run L C var (construct magd viewDirection viewUp angle) es).mOrientation = 0 ∨
      (run L C var (construct magd viewDirection viewUp angle) es).mOrientation = 90 ∨
      (run L C var (construct magd viewDirection viewUp angle) es).mOrientation = 180 ∨
      (run L C var (construct magd viewDirection viewUp angle) es).mOrientation = 270 := by
  have key : ∀ (l : List (Event K)) (s : State K),
      (s.mOrientation = 0 ∨ s.mOrientation = 90 ∨ s.mOrientation = 180 ∨
        s.mOrientation = 270) →
      ((run L C var s l).mOrientation = 0 ∨ (run L C var s l).mOrientation = 90 ∨
        (run L C var s l).mOrientation = 180 ∨ (run L C var s l).mOrientation = 270) := by
    intro l
    induction l with
    | nil =>
      intro s h
      exact h
    | cons e rest ih =>
      intro s h
      have h2 := ih (step L C var s e) (step_mOrientation L C var s e h)
      simpa [run, List.foldl_cons] using h2
  exact key es _ (Or.inl rfl)

/-! ## C18: tilt compensation -/

/-- C18: for every real vector `(x, y, z)`, with `roll = atan2(-x, y)` and
`pitch = atan2(-z, sqrt(x² + y²))`, `rot2d` of `(x, y)` by `-roll` gives
`(0, sqrt(x² + y²))`, then `rot2d` of `(sqrt(x² + y²), z)` by `pitch` gives
`(sqrt(x² + y² + z²), 0)`; so the two-step rotation of `update` maps `(x, y, z)` itself to
`(0, sqrt(x² + y² + z²), 0)`. -/
theorem tilt_compensation (x y z : ℝ) :
    rot2d realLibm x y (-(roll realLibm ⟨x, y, z⟩)) = (0, realLibm.sqrt (x * x + y * y)) ∧
      rot2d realLibm (realLibm.sqrt (x * x + y * y)) z (pitch realLibm ⟨x, y, z⟩)
        = (realLibm.sqrt (x * x + y * y + z * z), 0) ∧
      magProj realLibm (roll realLibm ⟨x, y, z⟩) (pitch realLibm ⟨x, y, z⟩) ⟨x, y, z⟩
        = ⟨0, realLibm.sqrt (x * x + y * y + z * z), 0⟩ := by
  have h1 : rot2d realLibm x y (-(roll realLibm ⟨x, y, z⟩))
      = (0, realLibm.sqrt (x * x + y * y)) := by
    simp only [roll]
    exact rot2d_neg_roll x y
  have h2 : rot2d realLibm (realLibm.sqrt (x * x + y * y)) z (pitch realLibm ⟨x, y, z⟩)
      = (realLibm.sqrt (x * x + y * y + z * z), 0) := by
    have hsq : Real.sqrt (x * x + y * y) * Real.sqrt (x * x + y * y) = x * x + y * y :=
      Real.mul_self_sqrt (add_nonneg (mul_self_nonneg x) (mul_self_nonneg y))
    have h := rot2d_pitch (Real.sqrt (x * x + y * y)) z
    rw [hsq] at h
    simp only [pitch]
    exact h
  refine ⟨h1, h2, ?_⟩
  simp only [magProj, h1, h2]

/-! ## C19: the remap table -/

/-- C19: in the `mOrientation` variant, remapping by `o1` and then by `o2` (both among
`0, 90, 180, 270`) equals remapping by `(o1 + o2) mod 360`; every remap, of either
variant, leaves `z` and `x² + y²` unchanged; and the Android mapping for rotation code `k`
in `0..3` equals the `mOrientation` mapping for `(360 - 90 k) mod 360`. -/
theorem remap_rotation_group (v : Vec3 K) :
    (∀ o1 o2 : Int, (o1 = 0 ∨ o1 = 90 ∨ o1 = 180 ∨ o1 = 270) →
        (o2 = 0 ∨ o2 = 90 ∨ o2 = 180 ∨ o2 = 270) →
        ∀ k1 k2 k3 : Int,
          applyOrientation Variant.orientationSensor k2 o2
              (applyOrientation Variant.orientationSensor k1 o1 v)
            = applyOrientation Variant.orientationSensor k3 ((o1 + o2) % 360) v) ∧
      (∀ (var : Variant) (k o : Int),
        (applyOrientation var k o v).z = v.z ∧
          (applyOrientation var k o v).x * (applyOrientation var k o v).x
              + (applyOrientation var k o v).y * (applyOrientation var k o v).y
            = v.x * v.x + v.y * v.y) ∧
      (∀ k : Int, 0 ≤ k → k ≤ 3 → ∀ o1 k2 : Int,
        applyOrientation Variant.android k o1 v
          = applyOrientation Variant.orientationSensor k2 ((360 - 90 * k) % 360) v) := by
  refine ⟨?_, ?_, ?_⟩
  · intro o1 o2 h1 h2 k1 k2 k3
    rcases h1 with rfl | rfl | rfl | rfl <;> rcases h2 with rfl | rfl | rfl | rfl <;>
      simp [applyOrientation, applyOrientationSensor]
  · intro var k o
    cases var
    · simp only [applyOrientation, applyOrientationAndroid]
      split_ifs <;> exact ⟨rfl, by ring⟩
    · simp only [applyOrientation, applyOrientationSensor]
      split_ifs <;> exact ⟨rfl, by ring⟩
    · exact ⟨rfl, rfl⟩
  · intro k h0 h3 o1 k2
    interval_cases k <;>
      simp [applyOrientation, applyOrientationAndroid, applyOrientationSensor]

/-- Witness for C19: the vector `(1, 2, 3)`, `mOrientation` values `180` then `270`, and
the Android rotation code `1`. -/
theorem remap_rotation_group_witness :
    applyOrientation Variant.orientationSensor 0 270
        (applyOrientation Variant.orientationSensor 0 180 (⟨1, 2, 3⟩ : Vec3 ℚ))
        = applyOrientation Variant.orientationSensor 0 ((180 + 270) % 360) ⟨1, 2, 3⟩ ∧
      applyOrientation Variant.android 1 0 (⟨1, 2, 3⟩ : Vec3 ℚ)
        = applyOrientation Variant.orientationSensor 0 ((360 - 90 * 1) % 360) ⟨1, 2, 3⟩ :=
  ⟨(remap_rotation_group (⟨1, 2, 3⟩ : Vec3 ℚ)).1 180 270 (by decide) (by decide) 0 0 0,
    (remap_rotation_group (⟨1, 2, 3⟩ : Vec3 ℚ)).2.2 1 (by decide) (by decide) 0 0⟩

/-! ## C20: the filter contracts toward its input -/

/-- C20: for every previous value `p`, target `s` and coefficient `c` in `[0, 1]`,
`|mix p s c - s| = (1 - c) * |p - s|`, and `mix s s c = s`; and in an enabled state with
`firstMeasure` clear, after `n` ticks with constant input and field of view, the error of
each smoothed acceleration channel (against the sample divided by `g`) and, when every tick
carries the magnetic reading `m`, of each smoothed magnetic channel is `(1 - c) ^ n` times
the initial error, with `c` the coefficient for that field of view. -/
theorem filter_contracts (L : Libm K) (C : Core K) (var : Variant) (rotation : Int) (fov : K)
    (r m : Vec3 K) (ms : ℕ → Option (Vec3 K)) (st : State K) (n : ℕ) :
    (∀ p s c : K, 0 ≤ c → c ≤ 1 → |mix p s c - s| = (1 - c) * |p - s|) ∧
      (∀ s c : K, mix s s c = s) ∧
      (st.enabled = true → st.firstMeasure = false →
        |(run L C var st (ticks rotation fov r ms n)).sensorX - r.x / 9.80665|
            = (1 - averagingCoef false fov) ^ n * |st.sensorX - r.x / 9.80665| ∧
          |(run L C var st (ticks rotation fov r ms n)).sensorY - r.y / 9.80665|
            = (1 - averagingCoef false fov) ^ n * |st.sensorY - r.y / 9.80665| ∧
          |(run L C var st (ticks rotation fov r ms n)).sensorZ - r.z / 9.80665|
            = (1 - averagingCoef false fov) ^ n * |st.sensorZ - r.z / 9.80665| ∧
          |(run L C var st (ticks rotation fov r (fun _ => some m) n)).magnetX - m.x|
            = (1 - averagingCoef false fov) ^ n * |st.magnetX - m.x| ∧
          |(run L C var st (ticks rotation fov r (fun _ => some m) n)).magnetY - m.y|
            = (1 - averagingCoef false fov) ^ n * |st.magnetY - m.y| ∧
          |(run L C var st (ticks rotation fov r (fun _ => some m) n)).magnetZ - m.z|
            = (1 - averagingCoef false fov) ^ n * |st.magnetZ - m.z|) := by
  refine ⟨?_, ?_, ?_⟩
  · intro p s c _ h1
    rw [mix_sub, abs_mul, abs_of_nonneg (sub_nonneg.mpr h1)]
  · intro s c
    unfold mix
    ring
  · intro he hf
    have hq : (0 : K) ≤ 1 - averagingCoef false fov :=
      sub_nonneg.mpr (averagingCoef_le_one fov)
    obtain ⟨_, _, hx, hy, hz⟩ := run_ticks_error L C var rotation fov r ms st he hf n
    obtain ⟨_, _, mx, my, mz⟩ := run_ticks_error_magnet L C var rotation fov r m st he hf n
    exact ⟨abs_of_contraction _ _ _ n hq hx, abs_of_contraction _ _ _ n hq hy,
      abs_of_contraction _ _ _ n hq hz, abs_of_contraction _ _ _ n hq mx,
      abs_of_contraction _ _ _ n hq my, abs_of_contraction _ _ _ n hq mz⟩

/-- Witness for C20: previous value `5`, target `1`, coefficient `1/10`; and an enabled
state with `firstMeasure` clear and `sensorX = 1/2`, two ticks at field of view `130` fed
the sample `(0, 0, 9.80665)`. -/
theorem filter_contracts_witness :
    |mix (5 : ℝ) 1 (1 / 10) - 1| = (1 - 1 / 10) * |(5 : ℝ) - 1| ∧
      |(run realLibm (sampleCore realLibm) Variant.identity
          ({ construct 0 ⟨1, 0, 0⟩ ⟨0, 0, 1⟩ 0 with
            enabled := true, firstMeasure := false, sensorX := 1 / 2 } : State ℝ)
          (ticks 0 130 ⟨0, 0, 9.80665⟩ (fun _ => none) 2)).sensorX - 0 / 9.80665|
        = (1 - averagingCoef false (130 : ℝ)) ^ 2
          * |({ construct 0 ⟨1, 0, 0⟩ ⟨0, 0, 1⟩ 0 with
              enabled := true, firstMeasure := false, sensorX := 1 / 2 } : State ℝ).sensorX
            - 0 / 9.80665| :=
  ⟨(filter_contracts realLibm (sampleCore realLibm) Variant.identity 0 130
      ⟨0, 0, 9.80665⟩ ⟨0, 0, 0⟩ (fun _ => none)
      { construct 0 ⟨1, 0, 0⟩ ⟨0, 0, 1⟩ 0 with
        enabled := true, firstMeasure := false, sensorX := 1 / 2 } 2).1
      5 1 (1 / 10) (by norm_num) (by norm_num),
    ((filter_contracts realLibm (sampleCore realLibm) Variant.identity 0 130
      ⟨0, 0, 9.80665⟩ ⟨0, 0, 0⟩ (fun _ => none)
      { construct 0 ⟨1, 0, 0⟩ ⟨0, 0, 1⟩ 0 with
        enabled := true, firstMeasure := false, sensorX := 1 / 2 } 2).2.2 rfl rfl).1⟩

end Claims

end SensorsMgr
